import Mathlib

/-!
Verification of the BDS dashboard ETL pipeline.

A shallow embedding of the transformation and load stages of the BDS
(Business Dynamics Statistics) ETL pipeline, together with proofs of the
behavioural properties stated in the specification.

The embedding models pandas DataFrames as tables of rows, where each row is
an association list from column names to cell values.  Cell values are either
strings (as delivered by the Census API) or IEEE-style numeric values, which
we model exactly as an extended rational type with separate `nan`, `+inf`
and `-inf` points (pandas/numpy float semantics on these inputs involves no
rounding surprises for the operations used here; decimal rounding is
modelled as exact half-even rounding on rationals).  Fallible pandas
operations (column access on a missing column raises `KeyError`, arithmetic
on string columns raises `TypeError`) are modelled in the `Except String`
monad.
-/

namespace BDS

/-- Numeric value of a float64 cell: `nan` (missing), signed infinities, or a
finite value modelled as an exact rational. -/
inductive Val : Type where
  | nan : Val
  | pinf : Val
  | ninf : Val
  | fin : ℚ → Val
  deriving DecidableEq

/-- Kernel-computable product of rationals.  (`Rat.mul` is `@[irreducible]`
in this toolchain, so the embedding routes arithmetic through `mkRat`,
which reduces; `qmul_eq` below identifies it with `·*·`.) -/
def qmul (a b : ℚ) : ℚ := mkRat (a.num * b.num) (a.den * b.den)

/-- Kernel-computable quotient of rationals (`x / 0 = 0`, as for `·/·` on
`ℚ`); `qdiv_eq` below identifies it with `·/·`. -/
def qdiv (a b : ℚ) : ℚ := Rat.divInt (a.num * (b.den : ℤ)) ((a.den : ℤ) * b.num)

/-- IEEE-style division on `Val`, matching numpy float semantics:
`x / 0` is `±inf` for nonzero finite `x`, `0 / 0` is `nan`, and `nan`
propagates. -/
def vdiv : Val → Val → Val
  | Val.nan, _ => Val.nan
  | _, Val.nan => Val.nan
  | Val.fin a, Val.fin b =>
      if b = 0 then (if a = 0 then Val.nan else if 0 < a then Val.pinf else Val.ninf)
      else Val.fin (qdiv a b)
  | Val.pinf, Val.fin b => if b < 0 then Val.ninf else Val.pinf
  | Val.ninf, Val.fin b => if b < 0 then Val.pinf else Val.ninf
  | Val.fin _, Val.pinf => Val.fin 0
  | Val.fin _, Val.ninf => Val.fin 0
  | Val.pinf, Val.pinf => Val.pinf
  | Val.pinf, Val.ninf => Val.ninf
  | Val.ninf, Val.pinf => Val.ninf
  | Val.ninf, Val.ninf => Val.pinf

/-- IEEE-style multiplication on `Val` (numpy semantics: `inf * 0 = nan`,
`nan` propagates). -/
def vmul : Val → Val → Val
  | Val.nan, _ => Val.nan
  | _, Val.nan => Val.nan
  | Val.fin a, Val.fin b => Val.fin (qmul a b)
  | Val.pinf, Val.fin b => if b = 0 then Val.nan else if 0 < b then Val.pinf else Val.ninf
  | Val.ninf, Val.fin b => if b = 0 then Val.nan else if 0 < b then Val.ninf else Val.pinf
  | Val.fin a, Val.pinf => if a = 0 then Val.nan else if 0 < a then Val.pinf else Val.ninf
  | Val.fin a, Val.ninf => if a = 0 then Val.nan else if 0 < a then Val.ninf else Val.pinf
  | Val.pinf, Val.pinf => Val.pinf
  | Val.pinf, Val.ninf => Val.ninf
  | Val.ninf, Val.pinf => Val.ninf
  | Val.ninf, Val.ninf => Val.pinf

/-- Round a rational to the nearest integer, ties to even (numpy's rounding
mode, used by `Series.round`).  With `f = ⌊q⌋` and remainder
`r = num - f·den` (so `q - f = r/den`), the fractional part is below,
above, or exactly one half according as `2r` compares with `den`. -/
def roundHE (q : ℚ) : ℤ :=
  let f : ℤ := Int.ediv q.num (q.den : ℤ)
  let r : ℤ := q.num - f * (q.den : ℤ)
  if 2 * r < (q.den : ℤ) then f
  else if (q.den : ℤ) < 2 * r then f + 1
  else if f % 2 = 0 then f else f + 1

/-- Exact decimal rounding to 2 places: shift by 100, round half-even,
shift back. -/
def round2q (x : ℚ) : ℚ := Rat.divInt (roundHE (qmul x 100)) 100

/-- `Series.round(2)`: round a finite value to 2 decimal places; `nan` and
infinities are fixed points (numpy behaviour). -/
def vround2 : Val → Val
  | Val.fin q => Val.fin (round2q q)
  | v => v

/-- One cell of a DataFrame: a raw string (API payloads are string-typed) or
a numeric value. -/
inductive CellVal : Type where
  | num : Val → CellVal
  | str : String → CellVal
  deriving DecidableEq

/-- Parse a decimal digit character. -/
def digitVal (c : Char) : Option ℕ :=
  if 48 ≤ c.toNat ∧ c.toNat ≤ 57 then some (c.toNat - 48) else none

/-- Value of a nonempty string of decimal digits. -/
def digitsVal : List Char → Option ℕ
  | [] => none
  | [c] => digitVal c
  | c :: cs => do
      let hd ← digitVal c
      let tl ← digitsVal cs
      pure (hd * 10 ^ cs.length + tl)

/-- Parse an unsigned decimal numeral, with an optional single decimal
point (`"12"`, `"12.5"`, `"12."`, `".5"`). -/
def parseUnsigned (cs : List Char) : Option ℚ :=
  match cs.span (fun c => c ≠ '.') with
  | (intPart, rest) =>
    match rest with
    | [] => (digitsVal intPart).map (fun n => mkRat (n : ℤ) 1)
    | _ :: frac =>
        if frac.any (fun c => c = '.') then none
        else if intPart = [] ∧ frac = [] then none
        else
          let ip : Option ℕ := if intPart = [] then some 0 else digitsVal intPart
          let fp : Option ℕ := if frac = [] then some 0 else digitsVal frac
          match ip, fp with
          | some i, some f =>
              some (mkRat ((i * 10 ^ frac.length + f : ℕ) : ℤ) (10 ^ frac.length))
          | _, _ => none

/-- Parse a (possibly signed) decimal numeral, the fragment of
`pd.to_numeric` parsing exercised by BDS data; statistical suppression codes
such as `"(D)"` or `"S"` do not parse. -/
def parseNum (s : String) : Option ℚ :=
  match s.toList with
  | '-' :: rest => (parseUnsigned rest).map (fun q => -q)
  | cs => parseUnsigned cs

/-- `pd.to_numeric(·, errors="coerce")` on one cell: numeric cells are kept,
parseable strings become their numeric value, anything else becomes `nan`. -/
def toNumericCell : CellVal → CellVal
  | CellVal.num v => CellVal.num v
  | CellVal.str s =>
      match parseNum s with
      | some q => CellVal.num (Val.fin q)
      | none => CellVal.num Val.nan

/-- One DataFrame row: an association list from column names to cells. -/
abbrev Row := List (String × CellVal)

/-- Row-level cell lookup (pandas column access within a row). -/
def rlookup : Row → String → Option CellVal
  | [], _ => none
  | b :: r, c => if b.1 = c then some b.2 else rlookup r c

/-- Cell of a row in a given column; a column that is listed in the frame
but missing from the row reads as `nan` (pandas missing data). -/
def getCellD (r : Row) (c : String) : CellVal :=
  (rlookup r c).getD (CellVal.num Val.nan)

/-- Set (or append) the value of one column in a row
(pandas column assignment, restricted to one row). -/
def rowSet : Row → String → CellVal → Row
  | [], c, v => [(c, v)]
  | b :: r, c, v => if b.1 = c then (c, v) :: r else b :: rowSet r c v

/-- A DataFrame: the column list, and the rows, each carrying its index
label (pandas integer index). -/
structure Table : Type where
  cols : List String
  rows : List (ℕ × Row)
  deriving DecidableEq

/-- The values of one column, reading missing bindings as `nan`. -/
def Table.getColD (df : Table) (c : String) : List CellVal :=
  df.rows.map (fun p => getCellD p.2 c)

/-- Column access `df[c]`: raises `KeyError` when the column is absent. -/
def Table.getColE (df : Table) (c : String) : Except String (List CellVal) :=
  if c ∈ df.cols then Except.ok (df.getColD c) else Except.error ("KeyError: " ++ c)

/-- Column assignment `df[c] = series`: replaces the column, or appends it
at the end of the column list when new. -/
def Table.setCol (df : Table) (c : String) (vs : List CellVal) : Table :=
  { cols := if c ∈ df.cols then df.cols else df.cols ++ [c],
    rows := List.zipWith (fun p v => (p.1, rowSet p.2 c v)) df.rows vs }

/-- transform.py lines 56-60: the fixed list of columns converted to
numeric. -/
def NUMERIC_COLS : List String :=
  ["FIRM", "ESTAB", "EMP", "FIRMDEATH_FIRMS",
   "ESTABS_ENTRY", "ESTABS_EXIT", "JOB_CREATION",
   "JOB_DESTRUCTION", "NET_JOB_CREATION", "YEAR"]

/-- One iteration of the cleaning loop (transform.py lines 67-70):
`if col in df.columns: df[col] = pd.to_numeric(df[col], errors="coerce")`. -/
def cleanStep (d : Table) (col : String) : Table :=
  if col ∈ d.cols then d.setCol col ((d.getColD col).map toNumericCell) else d

/-- transform.py lines 63-72 (`clean_numeric_columns`): for each listed
column present in the frame, coerce its cells to numeric
(`pd.to_numeric(..., errors="coerce")`). -/
def clean_numeric_columns (df : Table) : Table :=
  NUMERIC_COLS.foldl cleanStep df

/-- Numeric value of a cell, `TypeError` on a string cell (pandas raises
when dividing string-typed series). -/
def cellNum : CellVal → Except String Val
  | CellVal.num v => Except.ok v
  | CellVal.str _ => Except.error "TypeError"

/-- The rate formula applied to two numeric cells:
`(n / d * 100).round(2)`. -/
def rateCellV (n d : Val) : Val :=
  vround2 (vmul (vdiv n d) (Val.fin 100))

/-- Effectful list map in `Except` (used for series arithmetic). -/
def mapE {α β : Type} (f : α → Except String β) : List α → Except String (List β)
  | [] => Except.ok []
  | a :: l => (f a).bind (fun b => (mapE f l).bind (fun bs => Except.ok (b :: bs)))

/-- Pointwise `(ns / ds * 100).round(2)` over two column series;
`TypeError` if either series holds a string cell. -/
def seriesRate (ns ds : List CellVal) : Except String (List CellVal) :=
  mapE (fun p => (cellNum p.1).bind (fun a => (cellNum p.2).bind (fun b =>
      Except.ok (CellVal.num (rateCellV a b)))))
    (ns.zip ds)

/-- One guarded block of transform.py's `calculate_rates` (lines 80-98):
if the two guard columns are present, compute
`df[out] = (df[nc] / df[dc] * 100).round(2)`.  Note the source guards test
`g1`/`g2`, which for the establishment rates are *not* the columns the
formula reads. -/
def rateStep (g1 g2 nc dc oc : String) (df : Table) : Except String Table :=
  if g1 ∈ df.cols ∧ g2 ∈ df.cols then
    (df.getColE nc).bind (fun ns =>
    (df.getColE dc).bind (fun ds =>
    (seriesRate ns ds).bind (fun vs =>
    Except.ok (df.setCol oc vs))))
  else Except.ok df

/-- transform.py lines 75-100 (`calculate_rates`): the five derived rate
metrics, each behind its presence guard. -/
def calculate_rates (df : Table) : Except String Table :=
  (rateStep "FIRM" "ESTABS_ENTRY" "ESTABS_ENTRY" "ESTAB" "STARTUP_RATE" df).bind (fun df =>
  (rateStep "FIRM" "ESTABS_EXIT" "ESTABS_EXIT" "ESTAB" "EXIT_RATE" df).bind (fun df =>
  (rateStep "EMP" "JOB_CREATION" "JOB_CREATION" "EMP" "JOB_CREATION_RATE" df).bind (fun df =>
  (rateStep "EMP" "JOB_DESTRUCTION" "JOB_DESTRUCTION" "EMP" "JOB_DESTRUCTION_RATE" df).bind (fun df =>
  rateStep "FIRM" "FIRMDEATH_FIRMS" "FIRMDEATH_FIRMS" "FIRM" "FIRM_DEATH_RATE" df))))

/-- transform.py lines 19-35: firm age category labels (FAGE codes).  After
the raw CSV round-trip the codes are integers, so keys are modelled as
rationals. -/
def FIRM_AGE_LABELS : List (ℚ × String) :=
  [(1, "Total"), (10, "0 (Startups)"), (20, "1 year"), (30, "2 years"),
   (40, "3 years"), (50, "4 years"), (60, "5 years"), (65, "1-5 years"),
   (70, "6-10 years"), (75, "11+ years"), (80, "11-15 years"),
   (90, "16-20 years"), (100, "21-25 years"), (110, "26+ years"),
   (150, "Left Censored")]

/-- transform.py lines 39-53: US state FIPS codes to names (51 entries). -/
def STATE_FIPS : List (ℚ × String) :=
  [(1, "Alabama"), (2, "Alaska"), (4, "Arizona"), (5, "Arkansas"),
   (6, "California"), (8, "Colorado"), (9, "Connecticut"), (10, "Delaware"),
   (11, "District of Columbia"), (12, "Florida"), (13, "Georgia"), (15, "Hawaii"),
   (16, "Idaho"), (17, "Illinois"), (18, "Indiana"), (19, "Iowa"),
   (20, "Kansas"), (21, "Kentucky"), (22, "Louisiana"), (23, "Maine"),
   (24, "Maryland"), (25, "Massachusetts"), (26, "Michigan"), (27, "Minnesota"),
   (28, "Mississippi"), (29, "Missouri"), (30, "Montana"), (31, "Nebraska"),
   (32, "Nevada"), (33, "New Hampshire"), (34, "New Jersey"), (35, "New Mexico"),
   (36, "New York"), (37, "North Carolina"), (38, "North Dakota"), (39, "Ohio"),
   (40, "Oklahoma"), (41, "Oregon"), (42, "Pennsylvania"), (44, "Rhode Island"),
   (45, "South Carolina"), (46, "South Dakota"), (47, "Tennessee"), (48, "Texas"),
   (49, "Utah"), (50, "Vermont"), (51, "Virginia"), (53, "Washington"),
   (54, "West Virginia"), (55, "Wisconsin"), (56, "Wyoming")]

/-- Lookup in a static code→label mapping. -/
def qlookup : List (ℚ × String) → ℚ → Option String
  | [], _ => none
  | e :: m, q => if e.1 = q then some e.2 else qlookup m q

/-- `Series.map(dict)` on one cell: a finite numeric code found in the
mapping yields its label; anything else (unmapped code, `nan`, strings,
infinities) yields `nan`. -/
def mapLabels (m : List (ℚ × String)) : CellVal → CellVal
  | CellVal.num (Val.fin q) =>
      match qlookup m q with
      | some s => CellVal.str s
      | none => CellVal.num Val.nan
  | _ => CellVal.num Val.nan

/-- transform.py lines 103-108 (`extract_firm_births`): keep the `FAGE = 10`
rows, project to `(YEAR, FIRM)` and rename `FIRM` to `FIRM_BIRTHS`.
Missing columns raise `KeyError` as in pandas. -/
def extract_firm_births (firm_age_df : Table) : Except String Table :=
  if "FAGE" ∈ firm_age_df.cols then
    if "YEAR" ∈ firm_age_df.cols ∧ "FIRM" ∈ firm_age_df.cols then
      Except.ok
        { cols := ["YEAR", "FIRM_BIRTHS"],
          rows := (firm_age_df.rows.filter
                     (fun q => decide (getCellD q.2 "FAGE" = CellVal.num (Val.fin 10)))).map
                   (fun q => (q.1, [("YEAR", getCellD q.2 "YEAR"),
                                    ("FIRM_BIRTHS", getCellD q.2 "FIRM")])) }
    else Except.error "KeyError: YEAR/FIRM"
  else Except.error "KeyError: FAGE"

/-- Concatenation of per-row match lists (the row multiplication a join
performs). -/
def joinRows {α : Type} (g : α → List Row) : List α → List Row
  | [] => []
  | a :: l => g a ++ joinRows g l

/-- Re-create a fresh `RangeIndex` (pandas `merge` output /
`reset_index(drop=True)`). -/
def reindex (l : List Row) : List (ℕ × Row) :=
  (List.range l.length).zip l

/-- `left.merge(right, on=key, how="left")`: each left row is joined with
every right row having an equal key cell; a left row with no match keeps a
single output row whose new columns are `nan`.  The embedding assumes the
non-key column sets are disjoint (true for every merge the pipeline
performs; pandas would otherwise rename with suffixes). -/
def mergeLeft (key : String) (l r : Table) : Except String Table :=
  if key ∈ l.cols ∧ key ∈ r.cols then
    Except.ok
      { cols := l.cols ++ r.cols.filter (fun c => !decide (c = key)),
        rows := reindex (joinRows
          (fun p =>
            match r.rows.filter (fun q => decide (getCellD q.2 key = getCellD p.2 key)) with
            | [] => [p.2 ++ (r.cols.filter (fun c => !decide (c = key))).map
                       (fun c => (c, CellVal.num Val.nan))]
            | ms => ms.map (fun q => p.2 ++ q.2.filter (fun b => !decide (b.1 = key))))
          l.rows) }
  else Except.error ("KeyError: " ++ key)

/-- transform.py lines 111-124 (`add_firm_birth_rate`): extract the firm
birth series, left-merge it into the national table on `YEAR`, then compute
`FIRM_BIRTH_RATE = (FIRM_BIRTHS / FIRM * 100).round(2)` (unguarded). -/
def add_firm_birth_rate (national_df firm_age_df : Table) : Except String Table :=
  (extract_firm_births firm_age_df).bind (fun firm_births =>
  (mergeLeft "YEAR" national_df firm_births).bind (fun df =>
  (df.getColE "FIRM_BIRTHS").bind (fun ns =>
  (df.getColE "FIRM").bind (fun ds =>
  (seriesRate ns ds).bind (fun vs =>
  Except.ok (df.setCol "FIRM_BIRTH_RATE" vs))))))

/-- Sort-key rank of a cell: `-inf < finite < +inf < nan` (ascending sort
with `na_position="last"`).  Strings rank after everything; the pipeline
never sorts a string-typed key (pandas would raise on mixed types), and two
string cells are modelled as tying. -/
def rank : CellVal → ℕ
  | CellVal.num Val.ninf => 0
  | CellVal.num (Val.fin _) => 1
  | CellVal.num Val.pinf => 2
  | CellVal.num Val.nan => 3
  | CellVal.str _ => 4

/-- Finite value of a cell, `0` otherwise (only used to order same-rank
cells). -/
def qval : CellVal → ℚ
  | CellVal.num (Val.fin q) => q
  | _ => 0

/-- Total preorder on sort-key cells. -/
def cellLEkey (a b : CellVal) : Bool :=
  decide (rank a < rank b ∨ (rank a = rank b ∧ qval a ≤ qval b))

/-- Lexicographic comparison of two rows on a list of sort keys
(`df.sort_values(keys)` with default ascending order). -/
def rowLE (keys : List String) (r s : Row) : Bool :=
  match keys with
  | [] => true
  | k :: ks =>
      if cellLEkey (getCellD r k) (getCellD s k) then
        if cellLEkey (getCellD s k) (getCellD r k) then rowLE ks r s else true
      else false

/-- `df.sort_values(keys)`: stable comparison sort of the rows (index
labels travel with their rows); `KeyError` when a key column is absent. -/
def sort_values (keys : List String) (df : Table) : Except String Table :=
  if keys.all (fun k => decide (k ∈ df.cols)) then
    Except.ok
      { cols := df.cols,
        rows := List.insertionSort (fun p q => rowLE keys p.2 q.2 = true) df.rows }
  else Except.error "KeyError: sort_values"

/-- `df.reset_index(drop=True)`: renumber the index 0,1,2,... keeping row
order. -/
def reset_index (df : Table) : Table :=
  { cols := df.cols, rows := reindex (df.rows.map Prod.snd) }

/-- `df.drop(columns=["us"])` guarded by presence, as in the transform
functions. -/
def dropUs (df : Table) : Table :=
  if "us" ∈ df.cols then
    { cols := df.cols.erase "us",
      rows := df.rows.map (fun p => (p.1, p.2.filter (fun b => !decide (b.1 = "us")))) }
  else df

/-- transform.py lines 127-143 (`transform_national`): clean, compute rates,
sort by `YEAR`, reset the index, drop the constant `us` column. -/
def transform_national (df : Table) : Except String Table :=
  (calculate_rates (clean_numeric_columns df)).bind (fun df =>
  (sort_values ["YEAR"] df).bind (fun df =>
  Except.ok (dropUs (reset_index df))))

/-- transform.py lines 146-166 (`transform_by_firm_age`): clean, compute
rates, attach `FIRM_AGE_LABEL` when `FAGE` is present, sort by
`(YEAR, FAGE)`, reset the index, drop `us`. -/
def transform_by_firm_age (df : Table) : Except String Table :=
  (calculate_rates (clean_numeric_columns df)).bind (fun df =>
  (sort_values ["YEAR", "FAGE"]
      (if "FAGE" ∈ df.cols then
        df.setCol "FIRM_AGE_LABEL" ((df.getColD "FAGE").map (mapLabels FIRM_AGE_LABELS))
      else df)).bind (fun df =>
  Except.ok (dropUs (reset_index df))))

/-- transform.py lines 169-185 (`transform_by_state`): clean, compute rates,
attach `STATE_NAME` when `state` is present, sort by `(YEAR, state)`, reset
the index (no `us` drop in this function). -/
def transform_by_state (df : Table) : Except String Table :=
  (calculate_rates (clean_numeric_columns df)).bind (fun df =>
  (sort_values ["YEAR", "state"]
      (if "state" ∈ df.cols then
        df.setCol "STATE_NAME" ((df.getColD "state").map (mapLabels STATE_FIPS))
      else df)).bind (fun df =>
  Except.ok (reset_index df)))

/-! ## The load stage (load.py)

The SQLite store is external state; we model the destination database as an
association list from table names to row counts plus the set of index names,
and model the row counts the verification loop re-reads (`SELECT COUNT(*)`,
load.py lines 82-86) as an explicit input, since they come back from the
external store. -/

/-- The destination store: per-table row counts and created index names. -/
structure DBState : Type where
  tables : List (String × ℕ)
  indexes : List String
  deriving DecidableEq

/-- load.py lines 23-26 (`load_table`): `to_sql(..., if_exists="replace")` —
a full destructive refresh of one table. -/
def load_table (db : DBState) (name : String) (df : Table) : DBState :=
  { db with tables := db.tables.filter (fun e => !decide (e.1 = name)) ++
                        [(name, df.rows.length)] }

/-- load.py lines 29-45 (`create_indexes`): the five `CREATE INDEX IF NOT
EXISTS` statements. -/
def INDEX_NAMES : List String :=
  ["idx_national_year", "idx_firm_age_year", "idx_state_year",
   "idx_firm_age_fage", "idx_state_state"]

/-- load.py lines 29-45 (`create_indexes`), continued. -/
def create_indexes (db : DBState) : DBState :=
  { db with indexes :=
      INDEX_NAMES.foldl (fun idx i => if i ∈ idx then idx else idx ++ [i]) db.indexes }

/-- load.py lines 81-86: the post-write verification loop.  It re-reads each
table's row count (`fetchCount`, the value `SELECT COUNT(*)` returns from
the store) and prints it; the source performs no comparison and raises
nothing here. -/
def verify_load (fetchCount : String → ℕ) : List String :=
  ["national", "by_firm_age", "by_state"].map
    (fun t => "Verified: " ++ t ++ " has " ++ toString (fetchCount t) ++ " rows")

/-- load.py lines 48-94 (`load_all`): write the three tables, build indexes,
then run the verification loop.  Returns the final store and the printed
verification lines. -/
def load_all (db0 : DBState) (national_df firm_age_df state_df : Table)
    (fetchCount : String → ℕ) : Except String (DBState × List String) :=
  let db := load_table db0 "national" national_df
  let db := load_table db "by_firm_age" firm_age_df
  let db := load_table db "by_state" state_df
  let db := create_indexes db
  Except.ok (db, verify_load fetchCount)

/-- Whether an `Except` computation succeeded. -/
def isOkE {ε α : Type} : Except ε α → Bool
  | Except.ok _ => true
  | Except.error _ => false

/-! ## Basic lemmas about the embedding -/

instance {ε α : Type} [DecidableEq ε] [DecidableEq α] : DecidableEq (Except ε α) := fun a b =>
  match a, b with
  | Except.ok x, Except.ok y =>
      if h : x = y then Decidable.isTrue (by rw [h])
      else Decidable.isFalse (fun c => h (Except.ok.inj c))
  | Except.error x, Except.error y =>
      if h : x = y then Decidable.isTrue (by rw [h])
      else Decidable.isFalse (fun c => h (Except.error.inj c))
  | Except.ok _, Except.error _ => Decidable.isFalse (fun c => Except.noConfusion c)
  | Except.error _, Except.ok _ => Decidable.isFalse (fun c => Except.noConfusion c)

theorem bind_ok {ε α β : Type} {e : Except ε α} {f : α → Except ε β} {b : β}
    (h : e.bind f = Except.ok b) : ∃ a, e = Except.ok a ∧ f a = Except.ok b := by
  cases e with
  | ok a => exact ⟨a, rfl, h⟩
  | error err => exact absurd h (by simp [Except.bind])

@[simp] theorem ok_bind {ε α β : Type} (a : α) (f : α → Except ε β) :
    (Except.ok a : Except ε α).bind f = f a := rfl

@[simp] theorem rlookup_rowSet_self (r : Row) (c : String) (v : CellVal) :
    rlookup (rowSet r c v) c = some v := by
  induction r with
  | nil => simp [rowSet, rlookup]
  | cons b r ih =>
      by_cases h : b.1 = c
      · simp [rowSet, h, rlookup]
      · simp [rowSet, h, rlookup, ih]

theorem rlookup_rowSet_ne (r : Row) {c c' : String} (v : CellVal) (h : c' ≠ c) :
    rlookup (rowSet r c v) c' = rlookup r c' := by
  induction r with
  | nil => simp [rowSet, rlookup, Ne.symm h]
  | cons b r ih =>
      by_cases hb : b.1 = c
      · have hbc' : b.1 ≠ c' := by rw [hb]; exact Ne.symm h
        simp [rowSet, hb, rlookup, Ne.symm h, hbc', h]
      · by_cases hb' : b.1 = c'
        · simp [rowSet, hb, rlookup, hb', h]
        · simp [rowSet, hb, rlookup, hb', ih]

theorem getCellD_rowSet_ne (r : Row) {c c' : String} (v : CellVal) (h : c' ≠ c) :
    getCellD (rowSet r c v) c' = getCellD r c' := by
  simp [getCellD, rlookup_rowSet_ne r v h]

theorem rlookup_append (r₁ r₂ : Row) (c : String) :
    rlookup (r₁ ++ r₂) c =
      match rlookup r₁ c with
      | some v => some v
      | none => rlookup r₂ c := by
  induction r₁ with
  | nil => simp [rlookup]
  | cons b r ih =>
      by_cases h : b.1 = c
      · simp [rlookup, h]
      · simp [rlookup, h, ih]

theorem rlookup_eq_none {r : Row} {c : String} (h : c ∉ r.map Prod.fst) :
    rlookup r c = none := by
  induction r with
  | nil => rfl
  | cons b r ih =>
      simp only [List.map_cons, List.mem_cons] at h
      push_neg at h
      simp [rlookup, Ne.symm h.1, ih h.2]

theorem rlookup_append_right {r₁ : Row} (r₂ : Row) {c : String}
    (h : c ∉ r₁.map Prod.fst) :
    rlookup (r₁ ++ r₂) c = rlookup r₂ c := by
  rw [rlookup_append, rlookup_eq_none h]

theorem rlookup_append_left {r₁ : Row} (r₂ : Row) {c : String} {v : CellVal}
    (h : rlookup r₁ c = some v) :
    rlookup (r₁ ++ r₂) c = some v := by
  rw [rlookup_append, h]

theorem rlookup_filter_ne (r : Row) {c c' : String} (h : c ≠ c') :
    rlookup (r.filter (fun b => !decide (b.1 = c'))) c = rlookup r c := by
  induction r with
  | nil => rfl
  | cons b r ih =>
      rw [List.filter_cons]
      by_cases hb : b.1 = c'
      · have hbc : b.1 ≠ c := fun hc => h (hc ▸ hb)
        simp [hb, rlookup, hbc, ih, Ne.symm h]
      · by_cases hb' : b.1 = c
        · simp [hb, rlookup, hb', h]
        · simp [hb, rlookup, hb', ih]

theorem getCellD_filter_ne (r : Row) {c c' : String} (h : c ≠ c') :
    getCellD (r.filter (fun b => !decide (b.1 = c'))) c = getCellD r c := by
  simp [getCellD, rlookup_filter_ne r h]

theorem rowSet_eq_append {r : Row} {c : String} (v : CellVal)
    (h : c ∉ r.map Prod.fst) : rowSet r c v = r ++ [(c, v)] := by
  induction r with
  | nil => rfl
  | cons b r ih =>
      simp only [List.map_cons, List.mem_cons] at h
      push_neg at h
      simp [rowSet, Ne.symm h.1, ih h.2]

theorem mem_rowSet {r : Row} {c : String} {v : CellVal} {b : String × CellVal}
    (h : b ∈ rowSet r c v) : b ∈ r ∨ b = (c, v) := by
  induction r with
  | nil => simpa [rowSet] using h
  | cons e r ih =>
      by_cases he : e.1 = c
      · simp only [rowSet, he, if_true, List.mem_cons] at h
        rcases h with h | h
        · exact Or.inr h
        · exact Or.inl (List.mem_cons_of_mem _ h)
      · simp only [rowSet, he, if_false, List.mem_cons] at h
        rcases h with h | h
        · exact Or.inl (h ▸ List.mem_cons_self _ _)
        · rcases ih h with h' | h'
          · exact Or.inl (List.mem_cons_of_mem _ h')
          · exact Or.inr h'

theorem zipWith_map_self {α β γ : Type} (f : α → β → γ) (g : α → β) (l : List α) :
    List.zipWith f l (l.map g) = l.map (fun x => f x (g x)) := by
  induction l with
  | nil => rfl
  | cons a l ih => simp [ih]

theorem joinRows_eq_map {α : Type} (g : α → List Row) (h : α → Row) (l : List α)
    (hg : ∀ x ∈ l, g x = [h x]) : joinRows g l = l.map h := by
  induction l with
  | nil => rfl
  | cons a l ih =>
      show g a ++ joinRows g l = h a :: l.map h
      rw [hg a (List.mem_cons_self a l), List.singleton_append,
        ih (fun x hx => hg x (List.mem_cons_of_mem _ hx))]

theorem mapE_ok {α β : Type} (f : α → Except String β) (g : α → β) (l : List α)
    (h : ∀ x ∈ l, f x = Except.ok (g x)) : mapE f l = Except.ok (l.map g) := by
  induction l with
  | nil => rfl
  | cons a l ih =>
      simp only [mapE, h a (List.mem_cons_self a l), ok_bind,
        ih (fun x hx => h x (List.mem_cons_of_mem _ hx))]
      rfl

theorem filter_filter_comm {α : Type} (p q : α → Bool) (l : List α) :
    (l.filter p).filter q = l.filter (fun a => p a && q a) := by
  induction l with
  | nil => rfl
  | cons a l ih =>
      by_cases hp : p a
      · by_cases hq : q a <;> simp [List.filter, hp, hq, ih]
      · simp [List.filter, hp, ih]

theorem filter_map_comm {α β : Type} (f : α → β) (p : β → Bool) (l : List α) :
    (l.map f).filter p = (l.filter (fun a => p (f a))).map f := by
  induction l with
  | nil => rfl
  | cons a l ih =>
      by_cases hp : p (f a) <;> simp [List.filter, hp, ih]

/-- The column set of `setCol`. -/
theorem mem_setCol_cols {df : Table} {c c' : String} {vs : List CellVal} :
    c' ∈ (df.setCol c vs).cols ↔ c' ∈ df.cols ∨ c' = c := by
  by_cases h : c ∈ df.cols
  · simp only [Table.setCol, h, if_true]
    constructor
    · exact Or.inl
    · rintro (h' | rfl)
      · exact h'
      · exact h
  · simp [Table.setCol, h]

/-- `setCol` with a series computed as a map over the rows. -/
theorem setCol_map (df : Table) (c : String) (g : ℕ × Row → CellVal) :
    (df.setCol c (df.rows.map g)).rows =
      df.rows.map (fun p => (p.1, rowSet p.2 c (g p))) := by
  simp [Table.setCol, zipWith_map_self]

theorem getElem?_zipWith {α β γ : Type} (f : α → β → γ) (l₁ : List α) (l₂ : List β) (i : ℕ) :
    (List.zipWith f l₁ l₂)[i]? =
      match l₁[i]?, l₂[i]? with
      | some a, some b => some (f a b)
      | _, _ => none := by
  induction l₁ generalizing l₂ i with
  | nil => simp
  | cons a l ih =>
      cases l₂ with
      | nil => simp
      | cons b l₂ =>
          cases i with
          | zero => simp
          | succ i => simpa using ih l₂ i

theorem mem_zipWith {α β γ : Type} {f : α → β → γ} {l₁ : List α} {l₂ : List β} {x : γ}
    (h : x ∈ List.zipWith f l₁ l₂) : ∃ a ∈ l₁, ∃ b ∈ l₂, x = f a b := by
  induction l₁ generalizing l₂ with
  | nil => simp at h
  | cons a l ih =>
      cases l₂ with
      | nil => simp at h
      | cons b l₂ =>
          simp only [List.zipWith_cons_cons, List.mem_cons] at h
          rcases h with rfl | h
          · exact ⟨a, List.mem_cons_self _ _, b, List.mem_cons_self _ _, rfl⟩
          · rcases ih h with ⟨a', ha', b', hb', rfl⟩
            exact ⟨a', List.mem_cons_of_mem _ ha', b', List.mem_cons_of_mem _ hb', rfl⟩

theorem mapE_ok_length {α β : Type} {f : α → Except String β} {l : List α} {out : List β}
    (h : mapE f l = Except.ok out) : out.length = l.length := by
  induction l generalizing out with
  | nil => simp only [mapE] at h; cases h; rfl
  | cons a l ih =>
      simp only [mapE] at h
      rcases bind_ok h with ⟨b, _, h₂⟩
      rcases bind_ok h₂ with ⟨bs, hbs, h₃⟩
      cases h₃
      simpa using ih hbs

theorem mapE_ok_forall {α β : Type} {f : α → Except String β} {l : List α} {out : List β}
    (h : mapE f l = Except.ok out) : ∀ y ∈ out, ∃ x ∈ l, f x = Except.ok y := by
  induction l generalizing out with
  | nil => simp only [mapE] at h; cases h; intro y hy; simp at hy
  | cons a l ih =>
      simp only [mapE] at h
      rcases bind_ok h with ⟨b, hb, h₂⟩
      rcases bind_ok h₂ with ⟨bs, hbs, h₃⟩
      cases h₃
      intro y hy
      rcases List.mem_cons.mp hy with rfl | hy
      · exact ⟨a, List.mem_cons_self _ _, hb⟩
      · rcases ih hbs y hy with ⟨x, hx, hfx⟩
        exact ⟨x, List.mem_cons_of_mem _ hx, hfx⟩

/-! ## Numeric-cell predicates and rate-step lemmas -/

/-- All cells in columns from the numeric-column list are numeric (the state
of a table after `clean_numeric_columns`). -/
def NumericCells (df : Table) : Prop :=
  ∀ p ∈ df.rows, ∀ b ∈ p.2, b.1 ∈ NUMERIC_COLS → ∃ v, b.2 = CellVal.num v

/-- All cells read from column `c` are numeric. -/
def NumCol (df : Table) (c : String) : Prop :=
  ∀ p ∈ df.rows, ∃ v, getCellD p.2 c = CellVal.num v

/-- The numeric value of a cell (junk on strings; only used beneath a
numeric-cell hypothesis). -/
def valOf : CellVal → Val
  | CellVal.num v => v
  | CellVal.str _ => Val.nan

theorem rlookup_mem {r : Row} {c : String} {v : CellVal} (h : rlookup r c = some v) :
    (c, v) ∈ r := by
  induction r with
  | nil => simp [rlookup] at h
  | cons b r ih =>
      obtain ⟨b1, b2⟩ := b
      by_cases hb : b1 = c
      · simp only [rlookup, hb, if_true, Option.some.injEq] at h
        subst hb
        subst h
        exact List.mem_cons_self _ _
      · simp only [rlookup, hb, if_false] at h
        exact List.mem_cons_of_mem _ (ih h)

theorem numCol_of_numericCells {df : Table} {c : String} (h : NumericCells df)
    (hc : c ∈ NUMERIC_COLS) : NumCol df c := by
  intro p hp
  cases hv : rlookup p.2 c with
  | none => exact ⟨Val.nan, by simp [getCellD, hv]⟩
  | some v =>
      rcases h p hp (c, v) (rlookup_mem hv) hc with ⟨u, hu⟩
      have hu' : v = CellVal.num u := hu
      exact ⟨u, by simp [getCellD, hv, hu']⟩

theorem cellNum_ok {c : CellVal} (h : ∃ v, c = CellVal.num v) :
    cellNum c = Except.ok (valOf c) := by
  rcases h with ⟨v, rfl⟩; rfl

theorem seriesRate_cols (df : Table) (nc dc : String) (hn : NumCol df nc) (hd : NumCol df dc) :
    seriesRate (df.getColD nc) (df.getColD dc) =
      Except.ok (df.rows.map (fun p =>
        CellVal.num (rateCellV (valOf (getCellD p.2 nc)) (valOf (getCellD p.2 dc))))) := by
  unfold seriesRate Table.getColD
  rw [List.zip_map']
  have hcomp : df.rows.map (fun p =>
        CellVal.num (rateCellV (valOf (getCellD p.2 nc)) (valOf (getCellD p.2 dc)))) =
      (df.rows.map (fun a => (getCellD a.2 nc, getCellD a.2 dc))).map
        (fun x => CellVal.num (rateCellV (valOf x.1) (valOf x.2))) := by
    rw [List.map_map]; rfl
  rw [hcomp]
  apply mapE_ok
  intro x hx
  rcases List.mem_map.mp hx with ⟨p, hp, rfl⟩
  rcases hn p hp with ⟨u, hu⟩
  rcases hd p hp with ⟨w, hw⟩
  rw [cellNum_ok ⟨u, hu⟩, ok_bind, cellNum_ok ⟨w, hw⟩, ok_bind]

theorem rateStep_not {g1 g2 nc dc oc : String} {df : Table}
    (h : ¬(g1 ∈ df.cols ∧ g2 ∈ df.cols)) :
    rateStep g1 g2 nc dc oc df = Except.ok df := by
  unfold rateStep; rw [if_neg h]

theorem rateStep_eq {g1 g2 nc dc oc : String} {df : Table}
    (hg : g1 ∈ df.cols ∧ g2 ∈ df.cols) (hnc : nc ∈ df.cols) (hdc : dc ∈ df.cols)
    (hn : NumCol df nc) (hd : NumCol df dc) :
    rateStep g1 g2 nc dc oc df =
      Except.ok (df.setCol oc (df.rows.map (fun p =>
        CellVal.num (rateCellV (valOf (getCellD p.2 nc)) (valOf (getCellD p.2 dc)))))) := by
  unfold rateStep Table.getColE
  rw [if_pos hg, if_pos hnc, ok_bind, if_pos hdc, ok_bind,
    seriesRate_cols df nc dc hn hd, ok_bind]

/-- What any successful `rateStep` preserves: row count, index labels,
column membership, every cell outside the written column, and numeric-cell
cleanliness. -/
theorem rateStep_frame {g1 g2 nc dc oc : String} {d d' : Table}
    (h : rateStep g1 g2 nc dc oc d = Except.ok d') :
    d'.rows.length = d.rows.length ∧
    (∀ c, c ∈ d.cols → c ∈ d'.cols) ∧
    (∀ (i : ℕ) (c : String), c ≠ oc →
      (d'.rows[i]?).map (fun p : ℕ × Row => rlookup p.2 c) =
        (d.rows[i]?).map (fun p : ℕ × Row => rlookup p.2 c)) ∧
    (∀ i : ℕ, (d'.rows[i]?).map (fun p : ℕ × Row => p.1) =
      (d.rows[i]?).map (fun p : ℕ × Row => p.1)) ∧
    (NumericCells d → NumericCells d') := by
  unfold rateStep at h
  by_cases hg : g1 ∈ d.cols ∧ g2 ∈ d.cols
  · rw [if_pos hg] at h
    rcases bind_ok h with ⟨ns, hns, h₂⟩
    rcases bind_ok h₂ with ⟨ds, hds, h₃⟩
    rcases bind_ok h₃ with ⟨vs, hvs, h₄⟩
    cases h₄
    have hnslen : ns.length = d.rows.length := by
      unfold Table.getColE at hns
      by_cases hm : nc ∈ d.cols
      · rw [if_pos hm] at hns; cases hns; simp [Table.getColD]
      · rw [if_neg hm] at hns; cases hns
    have hdslen : ds.length = d.rows.length := by
      unfold Table.getColE at hds
      by_cases hm : dc ∈ d.cols
      · rw [if_pos hm] at hds; cases hds; simp [Table.getColD]
      · rw [if_neg hm] at hds; cases hds
    have hvslen : vs.length = d.rows.length := by
      have := mapE_ok_length hvs
      rw [List.length_zip, hnslen, hdslen, min_self] at this
      exact this
    have hvsnum : ∀ v ∈ vs, ∃ u, v = CellVal.num u := by
      intro v hv
      rcases mapE_ok_forall hvs v hv with ⟨x, _, hfx⟩
      rcases bind_ok hfx with ⟨a, _, hfx₂⟩
      rcases bind_ok hfx₂ with ⟨b, _, hfx₃⟩
      cases hfx₃
      exact ⟨_, rfl⟩
    have hrows := fun i : ℕ =>
      getElem?_zipWith (fun (p : ℕ × Row) v => (p.1, rowSet p.2 oc v)) d.rows vs i
    refine ⟨?_, ?_, ?_, ?_, ?_⟩
    · simp [Table.setCol, hvslen]
    · intro c hc
      exact mem_setCol_cols.mpr (Or.inl hc)
    · intro i c hc
      simp only [Table.setCol]
      rw [hrows i]
      cases hp : (d.rows)[i]? with
      | none => simp
      | some p =>
          have hi : i < d.rows.length := by
            by_contra hlt
            push_neg at hlt
            rw [List.getElem?_eq_none hlt] at hp
            cases hp
          obtain ⟨v, hv⟩ : ∃ v, vs[i]? = some v := by
            have hi' : i < vs.length := by rw [hvslen]; exact hi
            exact ⟨vs[i], List.getElem?_eq_getElem hi'⟩
          simp [hv, rlookup_rowSet_ne _ _ hc]
    · intro i
      simp only [Table.setCol]
      rw [hrows i]
      cases hp : (d.rows)[i]? with
      | none => simp
      | some p =>
          have hi : i < d.rows.length := by
            by_contra hlt
            push_neg at hlt
            rw [List.getElem?_eq_none hlt] at hp
            cases hp
          obtain ⟨v, hv⟩ : ∃ v, vs[i]? = some v := by
            have hi' : i < vs.length := by rw [hvslen]; exact hi
            exact ⟨vs[i], List.getElem?_eq_getElem hi'⟩
          simp [hv]
    · intro hnum p' hp' b hb hbn
      simp only [Table.setCol] at hp'
      rcases mem_zipWith hp' with ⟨p, hp, v, hv, rfl⟩
      rcases mem_rowSet hb with hbmem | rfl
      · exact hnum p hp b hbmem hbn
      · simpa using hvsnum v hv
  · rw [if_neg hg] at h
    cases h
    exact ⟨rfl, fun c hc => hc, fun i c _ => rfl, fun i => rfl, fun hn => hn⟩

/-- Inversion of a successful `calculate_rates` into its five steps. -/
theorem calculate_rates_inv {df T : Table} (h : calculate_rates df = Except.ok T) :
    ∃ d1 d2 d3 d4,
      rateStep "FIRM" "ESTABS_ENTRY" "ESTABS_ENTRY" "ESTAB" "STARTUP_RATE" df = Except.ok d1 ∧
      rateStep "FIRM" "ESTABS_EXIT" "ESTABS_EXIT" "ESTAB" "EXIT_RATE" d1 = Except.ok d2 ∧
      rateStep "EMP" "JOB_CREATION" "JOB_CREATION" "EMP" "JOB_CREATION_RATE" d2 = Except.ok d3 ∧
      rateStep "EMP" "JOB_DESTRUCTION" "JOB_DESTRUCTION" "EMP" "JOB_DESTRUCTION_RATE" d3 =
        Except.ok d4 ∧
      rateStep "FIRM" "FIRMDEATH_FIRMS" "FIRMDEATH_FIRMS" "FIRM" "FIRM_DEATH_RATE" d4 =
        Except.ok T := by
  unfold calculate_rates at h
  rcases bind_ok h with ⟨d1, h1, h⟩
  rcases bind_ok h with ⟨d2, h2, h⟩
  rcases bind_ok h with ⟨d3, h3, h⟩
  rcases bind_ok h with ⟨d4, h4, h⟩
  exact ⟨d1, d2, d3, d4, h1, h2, h3, h4, h⟩

/-- A float64 value holding no infinity: finite or `nan` (the only values a
cleaned count column can hold). -/
def finOrNan (v : Val) : Prop := v = Val.nan ∨ ∃ q, v = Val.fin q

/-- Null-propagation of the rate formula: for infinity-free operands the
result is `nan` exactly when an operand is `nan` or both are zero; a zero
denominator under a nonzero numerator instead yields an infinity. -/
theorem rateCellV_nan_iff {n d : Val} (hn : finOrNan n) (hd : finOrNan d) :
    (rateCellV n d = Val.nan ↔
      n = Val.nan ∨ d = Val.nan ∨ (n = Val.fin 0 ∧ d = Val.fin 0)) := by
  rcases hn with rfl | ⟨a, rfl⟩
  · simp [rateCellV, vdiv, vmul, vround2]
  · rcases hd with rfl | ⟨b, rfl⟩
    · simp [rateCellV, vdiv, vmul, vround2]
    · by_cases hb : b = 0
      · subst hb
        by_cases ha : a = 0
        · subst ha
          simp [rateCellV, vdiv, vmul, vround2]
        · rcases lt_or_gt_of_ne ha with hneg | hpos
          · have : ¬(0 : ℚ) < a := not_lt.mpr (le_of_lt hneg)
            simp [rateCellV, vdiv, vmul, vround2, ha, this]
          · simp [rateCellV, vdiv, vmul, vround2, ha, hpos]
      · simp [rateCellV, vdiv, vmul, vround2, hb]

theorem vround2_fin (x : ℚ) : vround2 (Val.fin x) = Val.fin (round2q x) := rfl

/-- `qmul` is multiplication. -/
theorem qmul_eq (a b : ℚ) : qmul a b = a * b := by
  unfold qmul
  rw [Rat.mkRat_eq_divInt, Rat.divInt_eq_div]
  push_cast
  conv_rhs => rw [← Rat.num_div_den a, ← Rat.num_div_den b, div_mul_div_comm]

/-- `qdiv` is division. -/
theorem qdiv_eq (a b : ℚ) : qdiv a b = a / b := by
  unfold qdiv
  rw [Rat.divInt_eq_div]
  push_cast
  conv_rhs => rw [← Rat.num_div_den a, ← Rat.num_div_den b, div_eq_mul_inv, inv_div,
    div_mul_div_comm]

/-- `round2q` in terms of ordinary field operations. -/
theorem round2q_eq (x : ℚ) : round2q x = (roundHE (x * 100) : ℚ) / 100 := by
  unfold round2q
  rw [qmul_eq, Rat.divInt_eq_div]
  push_cast
  rfl

/-- The rate formula on two finite cells with a nonzero denominator. -/
theorem rateCellV_fin {a b : ℚ} (hb : b ≠ 0) :
    rateCellV (Val.fin a) (Val.fin b) = Val.fin (round2q (a / b * 100)) := by
  simp [rateCellV, vdiv, vmul, vround2, hb, qdiv_eq, qmul_eq]

/-- Effect of one successful guarded rate step on row `i`, when the input
columns are present and numerically clean. -/
theorem step_lookup {g1 g2 nc dc oc : String} {dIn dOut : Table} {i : ℕ} {pIn : ℕ × Row}
    (e : rateStep g1 g2 nc dc oc dIn = Except.ok dOut)
    (hg1 : g1 ∈ dIn.cols) (hg2 : g2 ∈ dIn.cols) (hnc : nc ∈ dIn.cols) (hdc : dc ∈ dIn.cols)
    (hnum : NumericCells dIn) (hncN : nc ∈ NUMERIC_COLS) (hdcN : dc ∈ NUMERIC_COLS)
    (hp : dIn.rows[i]? = some pIn) :
    dOut.rows[i]? = some (pIn.1, rowSet pIn.2 oc (CellVal.num (rateCellV
      (valOf (getCellD pIn.2 nc)) (valOf (getCellD pIn.2 dc))))) := by
  have he := @rateStep_eq g1 g2 nc dc oc dIn ⟨hg1, hg2⟩ hnc hdc
    (numCol_of_numericCells hnum hncN) (numCol_of_numericCells hnum hdcN)
  rw [e] at he
  have hOut := Except.ok.inj he
  rw [hOut, setCol_map, List.getElem?_map, hp, Option.map_some']

theorem calc_death_lookup {df T : Table} {i : ℕ} {p : ℕ × Row}
    (h : calculate_rates df = Except.ok T) (hnum : NumericCells df)
    (hg1 : "FIRM" ∈ df.cols) (hg2 : "FIRMDEATH_FIRMS" ∈ df.cols)
    (hp : df.rows[i]? = some p) :
    ∃ p' : ℕ × Row, T.rows[i]? = some p' ∧ p'.1 = p.1 ∧
      rlookup p'.2 "FIRM_DEATH_RATE" = some (CellVal.num (rateCellV
        (valOf (getCellD p.2 "FIRMDEATH_FIRMS")) (valOf (getCellD p.2 "FIRM")))) := by
  obtain ⟨d1, d2, d3, d4, e1, e2, e3, e4, e5⟩ := calculate_rates_inv h
  obtain ⟨len1, mono1, look1, fst1, num1⟩ := rateStep_frame e1
  obtain ⟨len2, mono2, look2, fst2, num2⟩ := rateStep_frame e2
  obtain ⟨len3, mono3, look3, fst3, num3⟩ := rateStep_frame e3
  obtain ⟨len4, mono4, look4, fst4, num4⟩ := rateStep_frame e4
  have hm1 : "FIRM" ∈ d4.cols := mono4 _ (mono3 _ (mono2 _ (mono1 _ hg1)))
  have hm2 : "FIRMDEATH_FIRMS" ∈ d4.cols := mono4 _ (mono3 _ (mono2 _ (mono1 _ hg2)))
  have hnum4 : NumericCells d4 := num4 (num3 (num2 (num1 hnum)))
  have hlookn : (d4.rows[i]?).map (fun q : ℕ × Row => rlookup q.2 "FIRMDEATH_FIRMS") =
      (df.rows[i]?).map (fun q : ℕ × Row => rlookup q.2 "FIRMDEATH_FIRMS") := by
    rw [look4 i _ (by decide), look3 i _ (by decide), look2 i _ (by decide),
      look1 i _ (by decide)]
  have hlookd : (d4.rows[i]?).map (fun q : ℕ × Row => rlookup q.2 "FIRM") =
      (df.rows[i]?).map (fun q : ℕ × Row => rlookup q.2 "FIRM") := by
    rw [look4 i _ (by decide), look3 i _ (by decide), look2 i _ (by decide),
      look1 i _ (by decide)]
  have hfst : (d4.rows[i]?).map (fun q : ℕ × Row => q.1) =
      (df.rows[i]?).map (fun q : ℕ × Row => q.1) := by
    rw [fst4 i, fst3 i, fst2 i, fst1 i]
  cases h4 : d4.rows[i]? with
  | none => rw [h4, hp] at hlookn; simp at hlookn
  | some p4 =>
      rw [h4, hp, Option.map_some', Option.map_some'] at hlookn hlookd hfst
      have hgn : getCellD p4.2 "FIRMDEATH_FIRMS" = getCellD p.2 "FIRMDEATH_FIRMS" := by
        unfold getCellD; rw [Option.some.inj hlookn]
      have hgd : getCellD p4.2 "FIRM" = getCellD p.2 "FIRM" := by
        unfold getCellD; rw [Option.some.inj hlookd]
      have h5 := step_lookup e5 hm1 hm2 hm2 hm1 hnum4 (by decide) (by decide) h4
      refine ⟨_, h5, ?_, ?_⟩
      · exact Option.some.inj hfst
      · rw [rlookup_rowSet_self, hgn, hgd]

theorem calc_startup_lookup {df T : Table} {i : ℕ} {p : ℕ × Row}
    (h : calculate_rates df = Except.ok T) (hnum : NumericCells df)
    (hg1 : "FIRM" ∈ df.cols) (hg2 : "ESTABS_ENTRY" ∈ df.cols) (hdc : "ESTAB" ∈ df.cols)
    (hp : df.rows[i]? = some p) :
    ∃ p' : ℕ × Row, T.rows[i]? = some p' ∧ p'.1 = p.1 ∧
      rlookup p'.2 "STARTUP_RATE" = some (CellVal.num (rateCellV
        (valOf (getCellD p.2 "ESTABS_ENTRY")) (valOf (getCellD p.2 "ESTAB")))) := by
  obtain ⟨d1, d2, d3, d4, e1, e2, e3, e4, e5⟩ := calculate_rates_inv h
  obtain ⟨len2, mono2, look2, fst2, num2⟩ := rateStep_frame e2
  obtain ⟨len3, mono3, look3, fst3, num3⟩ := rateStep_frame e3
  obtain ⟨len4, mono4, look4, fst4, num4⟩ := rateStep_frame e4
  obtain ⟨len5, mono5, look5, fst5, num5⟩ := rateStep_frame e5
  have h1 := step_lookup e1 hg1 hg2 hg2 hdc hnum (by decide) (by decide) hp
  have hlook : (T.rows[i]?).map (fun q : ℕ × Row => rlookup q.2 "STARTUP_RATE") =
      (d1.rows[i]?).map (fun q : ℕ × Row => rlookup q.2 "STARTUP_RATE") := by
    rw [look5 i _ (by decide), look4 i _ (by decide), look3 i _ (by decide),
      look2 i _ (by decide)]
  have hfst : (T.rows[i]?).map (fun q : ℕ × Row => q.1) =
      (d1.rows[i]?).map (fun q : ℕ × Row => q.1) := by
    rw [fst5 i, fst4 i, fst3 i, fst2 i]
  cases hT : T.rows[i]? with
  | none => rw [hT, h1] at hlook; simp at hlook
  | some p' =>
      rw [hT, h1, Option.map_some', Option.map_some'] at hlook hfst
      refine ⟨p', rfl, by simpa using Option.some.inj hfst, ?_⟩
      rw [Option.some.inj hlook, rlookup_rowSet_self]

theorem calc_exit_lookup {df T : Table} {i : ℕ} {p : ℕ × Row}
    (h : calculate_rates df = Except.ok T) (hnum : NumericCells df)
    (hg1 : "FIRM" ∈ df.cols) (hg2 : "ESTABS_EXIT" ∈ df.cols) (hdc : "ESTAB" ∈ df.cols)
    (hp : df.rows[i]? = some p) :
    ∃ p' : ℕ × Row, T.rows[i]? = some p' ∧ p'.1 = p.1 ∧
      rlookup p'.2 "EXIT_RATE" = some (CellVal.num (rateCellV
        (valOf (getCellD p.2 "ESTABS_EXIT")) (valOf (getCellD p.2 "ESTAB")))) := by
  obtain ⟨d1, d2, d3, d4, e1, e2, e3, e4, e5⟩ := calculate_rates_inv h
  obtain ⟨len1, mono1, look1, fst1, num1⟩ := rateStep_frame e1
  obtain ⟨len3, mono3, look3, fst3, num3⟩ := rateStep_frame e3
  obtain ⟨len4, mono4, look4, fst4, num4⟩ := rateStep_frame e4
  obtain ⟨len5, mono5, look5, fst5, num5⟩ := rateStep_frame e5
  have hm1 : "FIRM" ∈ d1.cols := mono1 _ hg1
  have hm2 : "ESTABS_EXIT" ∈ d1.cols := mono1 _ hg2
  have hmdc : "ESTAB" ∈ d1.cols := mono1 _ hdc
  have hnum1 : NumericCells d1 := num1 hnum
  have hlookn : (d1.rows[i]?).map (fun q : ℕ × Row => rlookup q.2 "ESTABS_EXIT") =
      (df.rows[i]?).map (fun q : ℕ × Row => rlookup q.2 "ESTABS_EXIT") :=
    look1 i _ (by decide)
  have hlookd : (d1.rows[i]?).map (fun q : ℕ × Row => rlookup q.2 "ESTAB") =
      (df.rows[i]?).map (fun q : ℕ × Row => rlookup q.2 "ESTAB") :=
    look1 i _ (by decide)
  have hfst1 : (d1.rows[i]?).map (fun q : ℕ × Row => q.1) =
      (df.rows[i]?).map (fun q : ℕ × Row => q.1) := fst1 i
  cases h1 : d1.rows[i]? with
  | none => rw [h1, hp] at hlookn; simp at hlookn
  | some p1 =>
      rw [h1, hp, Option.map_some', Option.map_some'] at hlookn hlookd hfst1
      have hgn : getCellD p1.2 "ESTABS_EXIT" = getCellD p.2 "ESTABS_EXIT" := by
        unfold getCellD; rw [Option.some.inj hlookn]
      have hgd : getCellD p1.2 "ESTAB" = getCellD p.2 "ESTAB" := by
        unfold getCellD; rw [Option.some.inj hlookd]
      have h2 := step_lookup e2 hm1 hm2 hm2 hmdc hnum1 (by decide) (by decide) h1
      have hlook : (T.rows[i]?).map (fun q : ℕ × Row => rlookup q.2 "EXIT_RATE") =
          (d2.rows[i]?).map (fun q : ℕ × Row => rlookup q.2 "EXIT_RATE") := by
        rw [look5 i _ (by decide), look4 i _ (by decide), look3 i _ (by decide)]
      have hfstT : (T.rows[i]?).map (fun q : ℕ × Row => q.1) =
          (d2.rows[i]?).map (fun q : ℕ × Row => q.1) := by
        rw [fst5 i, fst4 i, fst3 i]
      cases hT : T.rows[i]? with
      | none => rw [hT, h2] at hlook; simp at hlook
      | some p' =>
          rw [hT, h2, Option.map_some', Option.map_some'] at hlook hfstT
          refine ⟨p', rfl, ?_, ?_⟩
          · rw [Option.some.inj hfstT]; exact Option.some.inj hfst1
          · rw [Option.some.inj hlook, rlookup_rowSet_self, hgn, hgd]

theorem calc_jc_lookup {df T : Table} {i : ℕ} {p : ℕ × Row}
    (h : calculate_rates df = Except.ok T) (hnum : NumericCells df)
    (hg1 : "EMP" ∈ df.cols) (hg2 : "JOB_CREATION" ∈ df.cols)
    (hp : df.rows[i]? = some p) :
    ∃ p' : ℕ × Row, T.rows[i]? = some p' ∧ p'.1 = p.1 ∧
      rlookup p'.2 "JOB_CREATION_RATE" = some (CellVal.num (rateCellV
        (valOf (getCellD p.2 "JOB_CREATION")) (valOf (getCellD p.2 "EMP")))) := by
  obtain ⟨d1, d2, d3, d4, e1, e2, e3, e4, e5⟩ := calculate_rates_inv h
  obtain ⟨len1, mono1, look1, fst1, num1⟩ := rateStep_frame e1
  obtain ⟨len2, mono2, look2, fst2, num2⟩ := rateStep_frame e2
  obtain ⟨len4, mono4, look4, fst4, num4⟩ := rateStep_frame e4
  obtain ⟨len5, mono5, look5, fst5, num5⟩ := rateStep_frame e5
  have hm1 : "EMP" ∈ d2.cols := mono2 _ (mono1 _ hg1)
  have hm2 : "JOB_CREATION" ∈ d2.cols := mono2 _ (mono1 _ hg2)
  have hnum2 : NumericCells d2 := num2 (num1 hnum)
  have hlookn : (d2.rows[i]?).map (fun q : ℕ × Row => rlookup q.2 "JOB_CREATION") =
      (df.rows[i]?).map (fun q : ℕ × Row => rlookup q.2 "JOB_CREATION") := by
    rw [look2 i _ (by decide), look1 i _ (by decide)]
  have hlookd : (d2.rows[i]?).map (fun q : ℕ × Row => rlookup q.2 "EMP") =
      (df.rows[i]?).map (fun q : ℕ × Row => rlookup q.2 "EMP") := by
    rw [look2 i _ (by decide), look1 i _ (by decide)]
  have hfst1 : (d2.rows[i]?).map (fun q : ℕ × Row => q.1) =
      (df.rows[i]?).map (fun q : ℕ × Row => q.1) := by
    rw [fst2 i, fst1 i]
  cases h2 : d2.rows[i]? with
  | none => rw [h2, hp] at hlookn; simp at hlookn
  | some p2 =>
      rw [h2, hp, Option.map_some', Option.map_some'] at hlookn hlookd hfst1
      have hgn : getCellD p2.2 "JOB_CREATION" = getCellD p.2 "JOB_CREATION" := by
        unfold getCellD; rw [Option.some.inj hlookn]
      have hgd : getCellD p2.2 "EMP" = getCellD p.2 "EMP" := by
        unfold getCellD; rw [Option.some.inj hlookd]
      have h3 := step_lookup e3 hm1 hm2 hm2 hm1 hnum2 (by decide) (by decide) h2
      have hlook : (T.rows[i]?).map (fun q : ℕ × Row => rlookup q.2 "JOB_CREATION_RATE") =
          (d3.rows[i]?).map (fun q : ℕ × Row => rlookup q.2 "JOB_CREATION_RATE") := by
        rw [look5 i _ (by decide), look4 i _ (by decide)]
      have hfstT : (T.rows[i]?).map (fun q : ℕ × Row => q.1) =
          (d3.rows[i]?).map (fun q : ℕ × Row => q.1) := by
        rw [fst5 i, fst4 i]
      cases hT : T.rows[i]? with
      | none => rw [hT, h3] at hlook; simp at hlook
      | some p' =>
          rw [hT, h3, Option.map_some', Option.map_some'] at hlook hfstT
          refine ⟨p', rfl, ?_, ?_⟩
          · rw [Option.some.inj hfstT]; exact Option.some.inj hfst1
          · rw [Option.some.inj hlook, rlookup_rowSet_self, hgn, hgd]

theorem calc_jd_lookup {df T : Table} {i : ℕ} {p : ℕ × Row}
    (h : calculate_rates df = Except.ok T) (hnum : NumericCells df)
    (hg1 : "EMP" ∈ df.cols) (hg2 : "JOB_DESTRUCTION" ∈ df.cols)
    (hp : df.rows[i]? = some p) :
    ∃ p' : ℕ × Row, T.rows[i]? = some p' ∧ p'.1 = p.1 ∧
      rlookup p'.2 "JOB_DESTRUCTION_RATE" = some (CellVal.num (rateCellV
        (valOf (getCellD p.2 "JOB_DESTRUCTION")) (valOf (getCellD p.2 "EMP")))) := by
  obtain ⟨d1, d2, d3, d4, e1, e2, e3, e4, e5⟩ := calculate_rates_inv h
  obtain ⟨len1, mono1, look1, fst1, num1⟩ := rateStep_frame e1
  obtain ⟨len2, mono2, look2, fst2, num2⟩ := rateStep_frame e2
  obtain ⟨len3, mono3, look3, fst3, num3⟩ := rateStep_frame e3
  obtain ⟨len5, mono5, look5, fst5, num5⟩ := rateStep_frame e5
  have hm1 : "EMP" ∈ d3.cols := mono3 _ (mono2 _ (mono1 _ hg1))
  have hm2 : "JOB_DESTRUCTION" ∈ d3.cols := mono3 _ (mono2 _ (mono1 _ hg2))
  have hnum3 : NumericCells d3 := num3 (num2 (num1 hnum))
  have hlookn : (d3.rows[i]?).map (fun q : ℕ × Row => rlookup q.2 "JOB_DESTRUCTION") =
      (df.rows[i]?).map (fun q : ℕ × Row => rlookup q.2 "JOB_DESTRUCTION") := by
    rw [look3 i _ (by decide), look2 i _ (by decide), look1 i _ (by decide)]
  have hlookd : (d3.rows[i]?).map (fun q : ℕ × Row => rlookup q.2 "EMP") =
      (df.rows[i]?).map (fun q : ℕ × Row => rlookup q.2 "EMP") := by
    rw [look3 i _ (by decide), look2 i _ (by decide), look1 i _ (by decide)]
  have hfst1 : (d3.rows[i]?).map (fun q : ℕ × Row => q.1) =
      (df.rows[i]?).map (fun q : ℕ × Row => q.1) := by
    rw [fst3 i, fst2 i, fst1 i]
  cases h3 : d3.rows[i]? with
  | none => rw [h3, hp] at hlookn; simp at hlookn
  | some p3 =>
      rw [h3, hp, Option.map_some', Option.map_some'] at hlookn hlookd hfst1
      have hgn : getCellD p3.2 "JOB_DESTRUCTION" = getCellD p.2 "JOB_DESTRUCTION" := by
        unfold getCellD; rw [Option.some.inj hlookn]
      have hgd : getCellD p3.2 "EMP" = getCellD p.2 "EMP" := by
        unfold getCellD; rw [Option.some.inj hlookd]
      have h4 := step_lookup e4 hm1 hm2 hm2 hm1 hnum3 (by decide) (by decide) h3
      have hlook : (T.rows[i]?).map (fun q : ℕ × Row => rlookup q.2 "JOB_DESTRUCTION_RATE") =
          (d4.rows[i]?).map (fun q : ℕ × Row => rlookup q.2 "JOB_DESTRUCTION_RATE") :=
        look5 i _ (by decide)
      have hfstT : (T.rows[i]?).map (fun q : ℕ × Row => q.1) =
          (d4.rows[i]?).map (fun q : ℕ × Row => q.1) := fst5 i
      cases hT : T.rows[i]? with
      | none => rw [hT, h4] at hlook; simp at hlook
      | some p' =>
          rw [hT, h4, Option.map_some', Option.map_some'] at hlook hfstT
          refine ⟨p', rfl, ?_, ?_⟩
          · rw [Option.some.inj hfstT]; exact Option.some.inj hfst1
          · rw [Option.some.inj hlook, rlookup_rowSet_self, hgn, hgd]

/-- Boolean test that a cell is numeric (for decidable instances of
`NumericCells` at concrete tables). -/
def cellIsNum : CellVal → Bool
  | CellVal.num _ => true
  | CellVal.str _ => false

theorem cellIsNum_iff {c : CellVal} : cellIsNum c = true ↔ ∃ v, c = CellVal.num v := by
  cases c <;> simp [cellIsNum]

theorem numericCells_of_all (df : Table)
    (h : df.rows.all (fun p => p.2.all
      (fun b => !(decide (b.1 ∈ NUMERIC_COLS)) || cellIsNum b.2)) = true) :
    NumericCells df := by
  intro p hp b hb hmem
  have h1 := List.all_eq_true.mp h p hp
  have h2 := List.all_eq_true.mp h1 b hb
  rw [decide_eq_true hmem] at h2
  simp only [Bool.not_true, Bool.false_or] at h2
  exact cellIsNum_iff.mp h2

/-! ## Well-formed tables and the cleaning characterization -/

/-- A well-formed DataFrame: distinct column names, and every row's keys
are exactly the column list, in order (as pandas guarantees). -/
def WF (df : Table) : Prop :=
  df.cols.Nodup ∧ ∀ p ∈ df.rows, p.2.map Prod.fst = df.cols

instance (df : Table) : Decidable (WF df) :=
  decidable_of_iff (df.cols.Nodup ∧ ∀ p ∈ df.rows, p.2.map Prod.fst = df.cols) Iff.rfl

theorem table_eq {a b : Table} (h1 : a.cols = b.cols) (h2 : a.rows = b.rows) : a = b := by
  cases a
  cases b
  simp only [Table.mk.injEq]
  exact ⟨h1, h2⟩

theorem toNumericCell_idem (c : CellVal) :
    toNumericCell (toNumericCell c) = toNumericCell c := by
  cases c with
  | num v => rfl
  | str s => cases h : parseNum s <;> simp [toNumericCell, h]

theorem row_map_noop {r : Row} {col : String} (f : CellVal → CellVal)
    (h : col ∉ r.map Prod.fst) :
    r.map (fun b => if b.1 = col then (b.1, f b.2) else b) = r := by
  induction r with
  | nil => rfl
  | cons b r ih =>
      simp only [List.map_cons, List.mem_cons] at h
      push_neg at h
      simp [Ne.symm h.1, ih h.2]

theorem rowSet_getCellD_eq_map {r : Row} {col : String} (f : CellVal → CellVal)
    (hnd : (r.map Prod.fst).Nodup) (hmem : col ∈ r.map Prod.fst) :
    rowSet r col (f (getCellD r col)) =
      r.map (fun b => if b.1 = col then (b.1, f b.2) else b) := by
  induction r with
  | nil => simp at hmem
  | cons b r ih =>
      simp only [List.map_cons, List.nodup_cons] at hnd
      by_cases hb : b.1 = col
      · have hnr : col ∉ r.map Prod.fst := hb ▸ hnd.1
        simp only [rowSet, getCellD, rlookup, hb, if_true, Option.getD_some,
          List.map_cons]
        rw [row_map_noop f hnr]
      · simp only [List.map_cons, List.mem_cons] at hmem
        rcases hmem with hmem | hmem
        · exact absurd hmem.symm hb
        · simp only [rowSet, getCellD, rlookup, hb, if_false, List.map_cons]
          rw [← ih hnd.2 hmem]
          rfl

theorem cleanStep_char {df : Table} {col : String} (hw : WF df) (hcol : col ∈ df.cols) :
    (cleanStep df col).cols = df.cols ∧
    (cleanStep df col).rows = df.rows.map (fun p =>
      (p.1, p.2.map (fun b => if b.1 = col then (b.1, toNumericCell b.2) else b))) := by
  unfold cleanStep
  rw [if_pos hcol]
  constructor
  · simp [Table.setCol, hcol]
  · rw [show ((df.getColD col).map toNumericCell) =
        df.rows.map (fun p => toNumericCell (getCellD p.2 col)) by
      simp [Table.getColD]]
    rw [setCol_map]
    apply List.map_congr_left
    intro p hp
    have hkeys : p.2.map Prod.fst = df.cols := hw.2 p hp
    have hnd : (p.2.map Prod.fst).Nodup := hkeys ▸ hw.1
    have hmem : col ∈ p.2.map Prod.fst := hkeys ▸ hcol
    rw [rowSet_getCellD_eq_map toNumericCell hnd hmem]

/-- Characterization of the cleaning fold: columns unchanged, and each cell
of a column from `L` is coerced with `pd.to_numeric` semantics. -/
theorem clean_fold_char (L : List String) :
    ∀ df : Table, WF df →
      (L.foldl cleanStep df).cols = df.cols ∧
      WF (L.foldl cleanStep df) ∧
      (L.foldl cleanStep df).rows = df.rows.map (fun p =>
        (p.1, p.2.map (fun b => if b.1 ∈ L then (b.1, toNumericCell b.2) else b))) := by
  induction L with
  | nil =>
      intro df hw
      refine ⟨rfl, hw, ?_⟩
      have : ∀ p : ℕ × Row, p ∈ df.rows →
          (p.1, p.2.map (fun b => if b.1 ∈ ([] : List String) then
            (b.1, toNumericCell b.2) else b)) = p := by
        intro p _
        have : p.2.map (fun b => if b.1 ∈ ([] : List String) then
            (b.1, toNumericCell b.2) else b) = p.2 := by
          simp
        rw [this]
      rw [List.map_congr_left this, List.map_id']
      rfl
  | cons col L ih =>
      intro df hw
      simp only [List.foldl_cons]
      by_cases hcol : col ∈ df.cols
      · obtain ⟨hc, hr⟩ := cleanStep_char hw hcol
        have hw1 : WF (cleanStep df col) := by
          constructor
          · rw [hc]; exact hw.1
          · intro p hp
            rw [hr] at hp
            rcases List.mem_map.mp hp with ⟨q, hq, rfl⟩
            have hkeys : q.2.map Prod.fst = df.cols := hw.2 q hq
            rw [hc, List.map_map, ← hkeys]
            apply List.map_congr_left
            intro b _
            by_cases hb : b.1 = col <;> simp [hb]
        obtain ⟨ihc, ihw, ihr⟩ := ih (cleanStep df col) hw1
        refine ⟨ihc.trans hc, ihw, ?_⟩
        rw [ihr, hr, List.map_map]
        apply List.map_congr_left
        intro p hp
        have hkeys : p.2.map Prod.fst = df.cols := hw.2 p hp
        simp only [Function.comp]
        rw [List.map_map]
        congr 1
        apply List.map_congr_left
        intro b _
        by_cases hb : b.1 = col
        · by_cases hL : b.1 ∈ L <;>
            simp [hb, hL, toNumericCell_idem, List.mem_cons]
        · by_cases hL : b.1 ∈ L <;>
            simp [hb, hL, List.mem_cons]
      · have hstep : cleanStep df col = df := by unfold cleanStep; rw [if_neg hcol]
        rw [hstep]
        obtain ⟨ihc, ihw, ihr⟩ := ih df hw
        refine ⟨ihc, ihw, ?_⟩
        rw [ihr]
        apply List.map_congr_left
        intro p hp
        have hkeys : p.2.map Prod.fst = df.cols := hw.2 p hp
        congr 1
        apply List.map_congr_left
        intro b hb
        have hbcols : b.1 ∈ df.cols := by
          rw [← hkeys]
          exact List.mem_map.mpr ⟨b, hb, rfl⟩
        have hbc : b.1 ≠ col := fun hbc => hcol (hbc ▸ hbcols)
        by_cases hL : b.1 ∈ L <;> simp [hL, hbc, List.mem_cons]

/-! ## Claims C5 and C8: the cleaner -/

/-- Net per-binding effect of the cleaner on a well-formed table: cells of
listed numeric columns are coerced, all others are untouched. -/
def coerceB (b : String × CellVal) : String × CellVal :=
  if b.1 ∈ NUMERIC_COLS then (b.1, toNumericCell b.2) else b

theorem coerceB_idem (b : String × CellVal) : coerceB (coerceB b) = coerceB b := by
  unfold coerceB
  by_cases hN : b.1 ∈ NUMERIC_COLS
  · simp [hN, toNumericCell_idem]
  · simp [hN]

theorem row_coerce_idem (r : Row) : (r.map coerceB).map coerceB = r.map coerceB := by
  rw [List.map_map]
  apply List.map_congr_left
  intro b _
  exact coerceB_idem b

/-- The cleaner on a well-formed table: total, column-preserving, and
acting cell-wise as `coerceB`. -/
theorem clean_char (df : Table) (hw : WF df) :
    (clean_numeric_columns df).cols = df.cols ∧ WF (clean_numeric_columns df) ∧
    (clean_numeric_columns df).rows = df.rows.map (fun p => (p.1, p.2.map coerceB)) := by
  obtain ⟨hc, hw2, hr⟩ := clean_fold_char NUMERIC_COLS df hw
  exact ⟨hc, hw2, hr⟩

/-- C8: on every well-formed table the cleaner never fails (it is a total
function), converts every cell of a listed numeric column — parseable
strings to their numeric value, unparseable cells (including the Census
suppression codes) to `nan`, already-numeric cells kept — and passes every
other column through unchanged; sample coercions included. -/
theorem C8_clean_coercion :
    (∀ df : Table, WF df →
      (clean_numeric_columns df).cols = df.cols ∧
      (clean_numeric_columns df).rows =
        df.rows.map (fun p => (p.1, p.2.map coerceB))) ∧
    (∀ b : String × CellVal, b.1 ∉ NUMERIC_COLS → coerceB b = b) ∧
    (∀ b : String × CellVal, b.1 ∈ NUMERIC_COLS → coerceB b = (b.1, toNumericCell b.2)) ∧
    toNumericCell (CellVal.str "123") = CellVal.num (Val.fin 123) ∧
    toNumericCell (CellVal.str "-7") = CellVal.num (Val.fin (-7)) ∧
    toNumericCell (CellVal.str "12.5") = CellVal.num (Val.fin (25/2)) ∧
    toNumericCell (CellVal.str "(D)") = CellVal.num Val.nan ∧
    toNumericCell (CellVal.str "(S)") = CellVal.num Val.nan ∧
    toNumericCell (CellVal.str "S") = CellVal.num Val.nan ∧
    (∀ v : Val, toNumericCell (CellVal.num v) = CellVal.num v) := by
  refine ⟨?_, ?_, ?_, by decide, by decide, ?_, by decide, by decide, by decide,
    fun v => rfl⟩
  · intro df hw
    obtain ⟨hc, _, hr⟩ := clean_char df hw
    exact ⟨hc, hr⟩
  · intro b hb
    unfold coerceB
    rw [if_neg hb]
  · intro b hb
    unfold coerceB
    rw [if_pos hb]
  · have h : (25/2 : ℚ) = mkRat 125 10 := by
      rw [Rat.mkRat_eq_divInt, Rat.divInt_eq_div]
      norm_num
    rw [h]
    decide

/-- A raw string-typed table for the cleaner witnesses. -/
def exC8 : Table :=
  { cols := ["YEAR", "FIRM", "name"],
    rows := [(0, [("YEAR", CellVal.str "2020"), ("FIRM", CellVal.str "(D)"),
                  ("name", CellVal.str "x")]),
             (1, [("YEAR", CellVal.str "2021"), ("FIRM", CellVal.str "515384"),
                  ("name", CellVal.str "y")])] }

/-- C8, witness: the characterization applied to a concrete raw table with
a suppressed cell. -/
theorem C8_witness :
    WF exC8 ∧
    (clean_numeric_columns exC8).cols = exC8.cols ∧
    (clean_numeric_columns exC8).rows =
      exC8.rows.map (fun p => (p.1, p.2.map coerceB)) := by
  have hw : WF exC8 := by decide
  have h := C8_clean_coercion.1 exC8 hw
  exact ⟨hw, h.1, h.2⟩

/-- C5: cleaning is idempotent, and on an already-numeric table it is a
no-op. -/
theorem C5_clean_idempotent :
    (∀ df : Table, WF df →
      clean_numeric_columns (clean_numeric_columns df) = clean_numeric_columns df) ∧
    (∀ df : Table, WF df → NumericCells df → clean_numeric_columns df = df) := by
  constructor
  · intro df hw
    obtain ⟨hc, hw2, hr⟩ := clean_char df hw
    obtain ⟨hc2, _, hr2⟩ := clean_char (clean_numeric_columns df) hw2
    apply table_eq hc2
    rw [hr2, hr, List.map_map]
    apply List.map_congr_left
    intro p _
    show (p.1, (p.2.map coerceB).map coerceB) = (p.1, p.2.map coerceB)
    rw [row_coerce_idem]
  · intro df hw hnum
    obtain ⟨hc, _, hr⟩ := clean_char df hw
    apply table_eq hc
    rw [hr]
    have hrows : ∀ p : ℕ × Row, p ∈ df.rows → (p.1, p.2.map coerceB) = p := by
      intro p hp
      have hrow : ∀ b ∈ p.2, coerceB b = (fun x => x) b := by
        intro b hb
        by_cases hN : b.1 ∈ NUMERIC_COLS
        · rcases hnum p hp b hb hN with ⟨v, hv⟩
          unfold coerceB
          rw [if_pos hN, hv]
          show (b.1, CellVal.num v) = b
          rw [← hv]
        · unfold coerceB
          rw [if_neg hN]
      rw [List.map_congr_left hrow, List.map_id']
    rw [List.map_congr_left hrows, List.map_id']

/-- A raw table for the idempotence witness. -/
def exC5 : Table :=
  { cols := ["YEAR", "EMP"],
    rows := [(0, [("YEAR", CellVal.str "2019"), ("EMP", CellVal.str "S")])] }

/-- An already-numeric table for the no-op witness. -/
def exC5n : Table :=
  { cols := ["YEAR", "EMP"],
    rows := [(0, [("YEAR", CellVal.num (Val.fin 2019)),
                  ("EMP", CellVal.num (Val.fin 42))])] }

/-- C5, witness: idempotence on a concrete raw table and no-op on a
concrete numeric table. -/
theorem C5_witness :
    WF exC5 ∧
    clean_numeric_columns (clean_numeric_columns exC5) = clean_numeric_columns exC5 ∧
    WF exC5n ∧ NumericCells exC5n ∧
    clean_numeric_columns exC5n = exC5n := by
  have hn : NumericCells exC5n := numericCells_of_all exC5n (by decide)
  exact ⟨by decide, C5_clean_idempotent.1 exC5 (by decide), by decide, hn,
    C5_clean_idempotent.2 exC5n (by decide) hn⟩

/-! ## Claim C3: the loader's verification step -/

/-- A one-row table for the load counterexample. -/
def exC3 : Table :=
  { cols := ["YEAR"], rows := [(0, [("YEAR", CellVal.num (Val.fin 2020))])] }

/-- C3, counterexample: run the loader on a one-row national table while
the store's re-read `SELECT COUNT(*)` returns 3 for every table (a
mismatch with the pre-write count 1); the load still completes
successfully, refuting "any mismatch ... makes the load operation fail". -/
theorem C3_counterexample :
    isOkE (load_all ⟨[], []⟩ exC3 exC3 exC3 (fun _ => 3)) = true ∧
    (3 : ℕ) ≠ exC3.rows.length := by
  exact ⟨rfl, by decide⟩

/-- C3 (amended): after writing the three tables and building indexes, the
loader re-reads each destination table's row count and prints it, but makes
no comparison with the pre-write counts: the load completes successfully
whatever counts the store returns. -/
theorem C3_load_ignores_reread_counts :
    ∀ (db0 : DBState) (n f s : Table) (fetchCount : String → ℕ),
      isOkE (load_all db0 n f s fetchCount) = true ∧
      load_all db0 n f s fetchCount =
        Except.ok
          (create_indexes (load_table (load_table (load_table db0 "national" n)
            "by_firm_age" f) "by_state" s),
           verify_load fetchCount) := by
  intro db0 n f s fetchCount
  exact ⟨rfl, rfl⟩

/-! ## Claims C4 and C9: the cross-table joiner -/

theorem rlookup_some_of_mem {r : Row} {c : String} (h : c ∈ r.map Prod.fst) :
    ∃ v, rlookup r c = some v := by
  induction r with
  | nil => simp at h
  | cons b r ih =>
      by_cases hb : b.1 = c
      · exact ⟨b.2, by simp [rlookup, hb]⟩
      · simp only [List.map_cons, List.mem_cons] at h
        rcases h with h | h
        · exact absurd h.symm hb
        · rcases ih h with ⟨v, hv⟩
          exact ⟨v, by simp [rlookup, hb, hv]⟩

theorem getCellD_append_left {r₁ : Row} (r₂ : Row) {c : String}
    (h : c ∈ r₁.map Prod.fst) :
    getCellD (r₁ ++ r₂) c = getCellD r₁ c := by
  rcases rlookup_some_of_mem h with ⟨v, hv⟩
  rw [getCellD, getCellD, rlookup_append_left r₂ hv, hv]

theorem getCellD_append_right {r₁ : Row} (r₂ : Row) {c : String}
    (h : c ∉ r₁.map Prod.fst) :
    getCellD (r₁ ++ r₂) c = getCellD r₂ c := by
  rw [getCellD, getCellD, rlookup_append_right r₂ h]

/-- Filtering on a key value in a list whose key values are pairwise
distinct yields at most one element. -/
theorem pairwise_filter_key {α β : Type} [DecidableEq β] {l : List α} {f : α → β}
    (h : l.Pairwise (fun a b => f a ≠ f b)) (y : β) :
    l.filter (fun a => decide (f a = y)) = [] ∨
      ∃ a, l.filter (fun a => decide (f a = y)) = [a] := by
  induction l with
  | nil => exact Or.inl rfl
  | cons a l ih =>
      rw [List.pairwise_cons] at h
      rw [List.filter_cons]
      by_cases ha : f a = y
      · right
        refine ⟨a, ?_⟩
        have hnil : l.filter (fun b => decide (f b = y)) = [] := by
          rw [List.filter_eq_nil_iff]
          intro b hb
          simp only [decide_eq_true_eq]
          intro hby
          exact h.1 b hb (ha ▸ hby ▸ rfl)
        simp [ha, hnil]
      · simpa [ha] using ih h.2

/-- The `FAGE = 10` rows of the firm-age table matching a given national
row's year (the rows the join brings in). -/
def age0Matches (fa : Table) (r : Row) : List (ℕ × Row) :=
  fa.rows.filter (fun q => decide (getCellD q.2 "FAGE" = CellVal.num (Val.fin 10)) &&
    decide (getCellD q.2 "YEAR" = getCellD r "YEAR"))

/-- The firm-birth cell a national row receives: the `FIRM` count of the
first matching age-0 row, `nan` if there is none. -/
def bCell (fa : Table) (r : Row) : CellVal :=
  match (age0Matches fa r).head? with
  | some q => getCellD q.2 "FIRM"
  | none => CellVal.num Val.nan

/-- The rate cell computed from two numeric cells (the string case cannot
arise under the numeric hypotheses of the theorems that use this). -/
def rateOfCells (n d : CellVal) : CellVal :=
  match n, d with
  | CellVal.num a, CellVal.num b => CellVal.num (rateCellV a b)
  | _, _ => CellVal.num Val.nan

/-- The projected `(YEAR, FIRM_BIRTHS)` row `extract_firm_births` emits. -/
def projRow (r : Row) : Row :=
  [("YEAR", getCellD r "YEAR"), ("FIRM_BIRTHS", getCellD r "FIRM")]

theorem extract_ok {fa : Table} (h1 : "FAGE" ∈ fa.cols) (h2 : "YEAR" ∈ fa.cols)
    (h3 : "FIRM" ∈ fa.cols) :
    extract_firm_births fa = Except.ok
      { cols := ["YEAR", "FIRM_BIRTHS"],
        rows := (fa.rows.filter (fun q =>
            decide (getCellD q.2 "FAGE" = CellVal.num (Val.fin 10)))).map
          (fun q => (q.1, projRow q.2)) } := by
  unfold extract_firm_births
  rw [if_pos h1, if_pos ⟨h2, h3⟩]
  rfl

theorem projRow_year (r : Row) : getCellD (projRow r) "YEAR" = getCellD r "YEAR" := by
  simp [projRow, getCellD, rlookup]

/-- The right-table rows matching a given left row, after extraction: the
projections of the age-0 rows with that row's year. -/
theorem merge_ms_char (fa : Table) (p : ℕ × Row) :
    (((fa.rows.filter (fun q =>
        decide (getCellD q.2 "FAGE" = CellVal.num (Val.fin 10)))).map
      (fun q => (q.1, projRow q.2))).filter
        (fun q => decide (getCellD q.2 "YEAR" = getCellD p.2 "YEAR"))) =
      (age0Matches fa p.2).map (fun q => (q.1, projRow q.2)) := by
  rw [filter_map_comm, filter_filter_comm]
  congr 1

theorem head?_mem {α : Type} {l : List α} {a : α} (h : l.head? = some a) : a ∈ l := by
  cases l with
  | nil => cases h
  | cons b l =>
      cases h
      exact List.mem_cons_self _ _

theorem map_snd_reindex (l : List Row) : (reindex l).map Prod.snd = l := by
  unfold reindex
  exact List.map_snd_zip _ _ (by simp)

theorem zipWith_snd_zip {α β γ δ : Type} (F : β → γ → δ) :
    ∀ (ns : List α) (l : List β) (vs : List γ),
      List.zipWith (fun p v => F p.2 v) (ns.zip l) vs = List.zipWith F l (vs.take (ns.zip l).length) ∧
      (ns.length = l.length →
        List.zipWith (fun p v => F p.2 v) (ns.zip l) vs = List.zipWith F l vs) := by
  intro ns
  induction ns with
  | nil =>
      intro l vs
      refine ⟨by simp, fun h => ?_⟩
      have : l = [] := by
        cases l with
        | nil => rfl
        | cons b l => cases h
      subst this
      simp
  | cons a ns ih =>
      intro l vs
      cases l with
      | nil => exact ⟨by simp, fun h => by simp⟩
      | cons b l =>
          cases vs with
          | nil => exact ⟨by simp, fun h => by simp⟩
          | cons v vs =>
              constructor
              · simp only [List.zip_cons_cons, List.zipWith_cons_cons, List.length_cons,
                  List.take_succ_cons]
                exact congrArg _ (ih l vs).1
              · intro h
                simp only [List.length_cons, Nat.succ.injEq] at h
                simp only [List.zip_cons_cons, List.zipWith_cons_cons]
                exact congrArg _ ((ih l vs).2 h)

theorem zipWith_map_both {α β γ δ : Type} (F : β → γ → δ) (f : α → β) (g : α → γ)
    (l : List α) :
    List.zipWith F (l.map f) (l.map g) = l.map (fun x => F (f x) (g x)) := by
  induction l with
  | nil => rfl
  | cons a l ih => simp [ih]

/-- `mergeLeft` when every left row has at most one match: one output row
per left row, extending it with the match (or `nan`s). -/
theorem mergeLeft_single {l r : Table} {key : String}
    (hkl : key ∈ l.cols) (hkr : key ∈ r.cols)
    (h2 : ∀ p ∈ l.rows,
      (r.rows.filter (fun q => decide (getCellD q.2 key = getCellD p.2 key))) = [] ∨
      ∃ q, (r.rows.filter (fun q => decide (getCellD q.2 key = getCellD p.2 key))) = [q]) :
    mergeLeft key l r = Except.ok
      { cols := l.cols ++ r.cols.filter (fun c => !decide (c = key)),
        rows := reindex (l.rows.map (fun p =>
          match (r.rows.filter
              (fun q => decide (getCellD q.2 key = getCellD p.2 key))).head? with
          | some q => p.2 ++ q.2.filter (fun b => !decide (b.1 = key))
          | none => p.2 ++ (r.cols.filter (fun c => !decide (c = key))).map
              (fun c => (c, CellVal.num Val.nan)))) } := by
  unfold mergeLeft
  rw [if_pos ⟨hkl, hkr⟩]
  congr 2
  apply congrArg
  apply joinRows_eq_map
  intro p hp
  rcases h2 p hp with h0 | ⟨q, hq⟩
  · rw [h0]; rfl
  · rw [hq]; rfl

/-- `mergeLeft` when each left row's joined output is a known single row. -/
theorem mergeLeft_map {l r : Table} {key : String} (h1fn : ℕ × Row → Row)
    (hkl : key ∈ l.cols) (hkr : key ∈ r.cols)
    (h2 : ∀ p ∈ l.rows,
      (match (r.rows.filter (fun q => decide (getCellD q.2 key = getCellD p.2 key))) with
       | [] => [p.2 ++ (r.cols.filter (fun c => !decide (c = key))).map
           (fun c => (c, CellVal.num Val.nan))]
       | ms => ms.map (fun q => p.2 ++ q.2.filter (fun b => !decide (b.1 = key)))) =
        [h1fn p]) :
    mergeLeft key l r = Except.ok
      { cols := l.cols ++ r.cols.filter (fun c => !decide (c = key)),
        rows := reindex (l.rows.map h1fn) } := by
  unfold mergeLeft
  rw [if_pos ⟨hkl, hkr⟩]
  apply congrArg
  apply table_eq
  · rfl
  · exact congrArg reindex (joinRows_eq_map _ _ _ h2)

/-- C4: with at most one age-0 (`FAGE = 10`) row per year in the firm-age
table, the joiner gives each national row the matching row's `FIRM` count
as `FIRM_BIRTHS` (missing when there is no match) and appends
`FIRM_BIRTH_RATE = (FIRM_BIRTHS / FIRM * 100).round(2)`, one output row per
national row and no error. -/
theorem C4_firm_birth_join :
    ∀ (national fa : Table),
      WF national →
      "YEAR" ∈ national.cols → "FIRM" ∈ national.cols →
      "FIRM_BIRTHS" ∉ national.cols → "FIRM_BIRTH_RATE" ∉ national.cols →
      "FAGE" ∈ fa.cols → "YEAR" ∈ fa.cols → "FIRM" ∈ fa.cols →
      (∀ p ∈ national.rows, ∃ v, getCellD p.2 "FIRM" = CellVal.num v) →
      (∀ q ∈ fa.rows, ∃ v, getCellD q.2 "FIRM" = CellVal.num v) →
      (fa.rows.filter (fun q =>
        decide (getCellD q.2 "FAGE" = CellVal.num (Val.fin 10)))).Pairwise
        (fun q1 q2 => getCellD q1.2 "YEAR" ≠ getCellD q2.2 "YEAR") →
      ∃ T, add_firm_birth_rate national fa = Except.ok T ∧
        T.rows.map Prod.snd = national.rows.map (fun p =>
          p.2 ++ [("FIRM_BIRTHS", bCell fa p.2),
                  ("FIRM_BIRTH_RATE", rateOfCells (bCell fa p.2) (getCellD p.2 "FIRM"))]) := by
  intro national fa hw hnY hnF hnFB hnFBR hfF hfY hfFI hnumN hnumF hpair
  have hAM : ∀ r0 : Row, age0Matches fa r0 =
      (fa.rows.filter (fun q =>
        decide (getCellD q.2 "FAGE" = CellVal.num (Val.fin 10)))).filter
        (fun q => decide (getCellD q.2 "YEAR" = getCellD r0 "YEAR")) := by
    intro r0
    rw [filter_filter_comm]
    rfl
  have hsingleA : ∀ r0 : Row,
      age0Matches fa r0 = [] ∨ ∃ q, age0Matches fa r0 = [q] := by
    intro r0
    rw [hAM]
    exact pairwise_filter_key hpair _
  have hbnum : ∀ r0 : Row, ∃ a, bCell fa r0 = CellVal.num a := by
    intro r0
    unfold bCell
    cases h0 : (age0Matches fa r0).head? with
    | none => exact ⟨Val.nan, rfl⟩
    | some q =>
        have hq : q ∈ fa.rows :=
          List.mem_of_mem_filter (head?_mem h0)
        rcases hnumF q hq with ⟨v, hv⟩
        exact ⟨v, hv⟩
  have hsing : ∀ p ∈ national.rows,
      (((fa.rows.filter (fun q =>
          decide (getCellD q.2 "FAGE" = CellVal.num (Val.fin 10)))).map
        (fun q => (q.1, projRow q.2))).filter
          (fun q => decide (getCellD q.2 "YEAR" = getCellD p.2 "YEAR"))) = [] ∨
      ∃ q, (((fa.rows.filter (fun q =>
          decide (getCellD q.2 "FAGE" = CellVal.num (Val.fin 10)))).map
        (fun q => (q.1, projRow q.2))).filter
          (fun q => decide (getCellD q.2 "YEAR" = getCellD p.2 "YEAR"))) = [q] := by
    intro p _
    rw [merge_ms_char fa p]
    rcases hsingleA p.2 with h0 | ⟨q, hq⟩
    · left
      rw [h0]
      rfl
    · right
      exact ⟨(q.1, projRow q.2), by rw [hq]; rfl⟩
  have hmerge : mergeLeft "YEAR" national
      { cols := ["YEAR", "FIRM_BIRTHS"],
        rows := (fa.rows.filter (fun q =>
            decide (getCellD q.2 "FAGE" = CellVal.num (Val.fin 10)))).map
          (fun q => (q.1, projRow q.2)) } =
      Except.ok
        { cols := national.cols ++ ["FIRM_BIRTHS"],
          rows := reindex (national.rows.map (fun p =>
            p.2 ++ [("FIRM_BIRTHS", bCell fa p.2)])) } := by
    have hm1 := @mergeLeft_map national
      { cols := ["YEAR", "FIRM_BIRTHS"],
        rows := (fa.rows.filter (fun q =>
            decide (getCellD q.2 "FAGE" = CellVal.num (Val.fin 10)))).map
          (fun q => (q.1, projRow q.2)) } "YEAR"
      (fun p => p.2 ++ [("FIRM_BIRTHS", bCell fa p.2)]) hnY
      (by exact List.mem_cons_self _ _) ?_
    · exact hm1
    · intro p _
      rcases hsingleA p.2 with h0 | ⟨q, hq⟩
      · have hb : bCell fa p.2 = CellVal.num Val.nan := by
          unfold bCell
          rw [h0]
          rfl
        rw [merge_ms_char fa p, h0]
        show [p.2 ++ [("FIRM_BIRTHS", CellVal.num Val.nan)]] =
          [p.2 ++ [("FIRM_BIRTHS", bCell fa p.2)]]
        rw [hb]
      · have hb : bCell fa p.2 = getCellD q.2 "FIRM" := by
          unfold bCell
          rw [hq]
          rfl
        rw [merge_ms_char fa p, hq]
        show [p.2 ++ (projRow q.2).filter (fun b => !decide (b.1 = "YEAR"))] =
          [p.2 ++ [("FIRM_BIRTHS", bCell fa p.2)]]
        rw [hb]
        rfl
  have hFB : Table.getColE
      { cols := national.cols ++ ["FIRM_BIRTHS"],
        rows := reindex (national.rows.map (fun p =>
          p.2 ++ [("FIRM_BIRTHS", bCell fa p.2)])) } "FIRM_BIRTHS" =
      Except.ok (national.rows.map (fun p => bCell fa p.2)) := by
    unfold Table.getColE Table.getColD
    rw [if_pos (List.mem_append.mpr (Or.inr (by decide)))]
    apply congrArg
    rw [show (fun p : ℕ × Row => getCellD p.2 "FIRM_BIRTHS") =
        ((fun r : Row => getCellD r "FIRM_BIRTHS") ∘ Prod.snd) from rfl,
      ← List.map_map, map_snd_reindex, List.map_map]
    apply List.map_congr_left
    intro p hp
    show getCellD (p.2 ++ [("FIRM_BIRTHS", bCell fa p.2)]) "FIRM_BIRTHS" = bCell fa p.2
    rw [getCellD_append_right _ (by rw [hw.2 p hp]; exact hnFB)]
    rfl
  have hFIRM : Table.getColE
      { cols := national.cols ++ ["FIRM_BIRTHS"],
        rows := reindex (national.rows.map (fun p =>
          p.2 ++ [("FIRM_BIRTHS", bCell fa p.2)])) } "FIRM" =
      Except.ok (national.rows.map (fun p => getCellD p.2 "FIRM")) := by
    unfold Table.getColE Table.getColD
    rw [if_pos (List.mem_append.mpr (Or.inl hnF))]
    apply congrArg
    rw [show (fun p : ℕ × Row => getCellD p.2 "FIRM") =
        ((fun r : Row => getCellD r "FIRM") ∘ Prod.snd) from rfl,
      ← List.map_map, map_snd_reindex, List.map_map]
    apply List.map_congr_left
    intro p hp
    show getCellD (p.2 ++ [("FIRM_BIRTHS", bCell fa p.2)]) "FIRM" = getCellD p.2 "FIRM"
    exact getCellD_append_left _ (by rw [hw.2 p hp]; exact hnF)
  have hseries : seriesRate (national.rows.map (fun p => bCell fa p.2))
      (national.rows.map (fun p => getCellD p.2 "FIRM")) =
      Except.ok (national.rows.map (fun p =>
        rateOfCells (bCell fa p.2) (getCellD p.2 "FIRM"))) := by
    unfold seriesRate
    rw [List.zip_map']
    have hcomp : national.rows.map (fun p =>
          rateOfCells (bCell fa p.2) (getCellD p.2 "FIRM")) =
        (national.rows.map (fun p => (bCell fa p.2, getCellD p.2 "FIRM"))).map
          (fun x => rateOfCells x.1 x.2) := by
      rw [List.map_map]
      apply List.map_congr_left
      intro p _
      rfl
    rw [hcomp]
    apply mapE_ok
    intro x hx
    rcases List.mem_map.mp hx with ⟨p, hp, rfl⟩
    rcases hbnum p.2 with ⟨a, ha⟩
    rcases hnumN p hp with ⟨b, hb⟩
    show (cellNum (bCell fa p.2)).bind _ = _
    rw [ha, hb]
    rfl
  refine ⟨Table.setCol
      { cols := national.cols ++ ["FIRM_BIRTHS"],
        rows := reindex (national.rows.map (fun p =>
          p.2 ++ [("FIRM_BIRTHS", bCell fa p.2)])) } "FIRM_BIRTH_RATE"
      (national.rows.map (fun p =>
        rateOfCells (bCell fa p.2) (getCellD p.2 "FIRM"))), ?_, ?_⟩
  · unfold add_firm_birth_rate
    rw [extract_ok hfF hfY hfFI, ok_bind, hmerge, ok_bind, hFB, ok_bind, hFIRM,
      ok_bind, hseries, ok_bind]
  · simp only [Table.setCol]
    rw [List.map_zipWith]
    have hlen : (List.range ((national.rows.map (fun p =>
        p.2 ++ [("FIRM_BIRTHS", bCell fa p.2)])).length)).length =
        (national.rows.map (fun p => p.2 ++ [("FIRM_BIRTHS", bCell fa p.2)])).length := by
      simp
    rw [show reindex (national.rows.map (fun p =>
        p.2 ++ [("FIRM_BIRTHS", bCell fa p.2)])) =
      (List.range ((national.rows.map (fun p =>
        p.2 ++ [("FIRM_BIRTHS", bCell fa p.2)])).length)).zip
        (national.rows.map (fun p => p.2 ++ [("FIRM_BIRTHS", bCell fa p.2)])) from rfl]
    rw [(zipWith_snd_zip (fun r v => rowSet r "FIRM_BIRTH_RATE" v) _ _ _).2 hlen,
      zipWith_map_both]
    apply List.map_congr_left
    intro p hp
    show rowSet (p.2 ++ [("FIRM_BIRTHS", bCell fa p.2)]) "FIRM_BIRTH_RATE"
        (rateOfCells (bCell fa p.2) (getCellD p.2 "FIRM")) = _
    rw [rowSet_eq_append _ (by
      rw [List.map_append, hw.2 p hp]
      intro hmem
      rcases List.mem_append.mp hmem with h | h
      · exact hnFBR h
      · simp at h)]
    rw [List.append_assoc]
    rfl

/-- C4 witness input: the national table of the spec scenario
(`YEAR = 2021`, `FIRM = 6000000`). -/
def exC4nat : Table :=
  { cols := ["YEAR", "FIRM"],
    rows := [(0, [("YEAR", CellVal.num (Val.fin 2021)),
                  ("FIRM", CellVal.num (Val.fin 6000000))])] }

/-- C4 witness input: the firm-age table of the spec scenario
(one age-0 row, `YEAR = 2021`, `FIRM = 450000`). -/
def exC4fa : Table :=
  { cols := ["FAGE", "YEAR", "FIRM"],
    rows := [(0, [("FAGE", CellVal.num (Val.fin 10)),
                  ("YEAR", CellVal.num (Val.fin 2021)),
                  ("FIRM", CellVal.num (Val.fin 450000))])] }

theorem C4_witness :
    ∃ T, add_firm_birth_rate exC4nat exC4fa = Except.ok T ∧
      T.rows.map Prod.snd = exC4nat.rows.map (fun p =>
        p.2 ++ [("FIRM_BIRTHS", bCell exC4fa p.2),
                ("FIRM_BIRTH_RATE",
                  rateOfCells (bCell exC4fa p.2) (getCellD p.2 "FIRM"))]) :=
  C4_firm_birth_join exC4nat exC4fa (by decide) (by decide) (by decide)
    (by decide) (by decide) (by decide) (by decide) (by decide)
    (by
      intro p hp
      unfold exC4nat at hp
      rw [List.mem_singleton] at hp
      subst hp
      exact ⟨Val.fin 6000000, rfl⟩)
    (by
      intro q hq
      unfold exC4fa at hq
      rw [List.mem_singleton] at hq
      subst hq
      exact ⟨Val.fin 450000, rfl⟩)
    (by decide)

theorem joinRows_singleton {α : Type} (g : α → List Row) (a : α) :
    joinRows g [a] = g a := by
  show g a ++ joinRows g [] = g a
  rw [show joinRows g ([] : List α) = [] from rfl, List.append_nil]

/-- C9: if the firm-age table has more than one age-0 (`FAGE = 10`) row for
a national row's year, the joiner emits one output row per matching age-0
row — each carrying that row's own `FIRM` count as `FIRM_BIRTHS` and its
own rate — rather than summing them, deduplicating, or raising an error. -/
theorem C9_duplicate_age0_rows :
    ∀ (national fa : Table) (p : ℕ × Row),
      WF national → national.rows = [p] →
      "YEAR" ∈ national.cols → "FIRM" ∈ national.cols →
      "FIRM_BIRTHS" ∉ national.cols → "FIRM_BIRTH_RATE" ∉ national.cols →
      "FAGE" ∈ fa.cols → "YEAR" ∈ fa.cols → "FIRM" ∈ fa.cols →
      (∃ v, getCellD p.2 "FIRM" = CellVal.num v) →
      (∀ q ∈ fa.rows, ∃ v, getCellD q.2 "FIRM" = CellVal.num v) →
      1 < (age0Matches fa p.2).length →
      ∃ T, add_firm_birth_rate national fa = Except.ok T ∧
        T.rows.length = (age0Matches fa p.2).length ∧
        T.rows.map Prod.snd = (age0Matches fa p.2).map (fun q =>
          p.2 ++ [("FIRM_BIRTHS", getCellD q.2 "FIRM"),
                  ("FIRM_BIRTH_RATE",
                    rateOfCells (getCellD q.2 "FIRM") (getCellD p.2 "FIRM"))]) := by
  intro national fa p hw hrows hnY hnF hnFB hnFBR hfF hfY hfFI hnump hnumF hk
  have hp : p ∈ national.rows := by
    rw [hrows]
    exact List.mem_cons_self _ _
  cases hma : age0Matches fa p.2 with
  | nil =>
      rw [hma] at hk
      exact absurd hk (by decide)
  | cons q0 qs =>
  have hmerge : mergeLeft "YEAR" national
      { cols := ["YEAR", "FIRM_BIRTHS"],
        rows := (fa.rows.filter (fun q =>
            decide (getCellD q.2 "FAGE" = CellVal.num (Val.fin 10)))).map
          (fun q => (q.1, projRow q.2)) } =
      Except.ok
        { cols := national.cols ++ ["FIRM_BIRTHS"],
          rows := reindex ((q0 :: qs).map (fun q =>
            p.2 ++ [("FIRM_BIRTHS", getCellD q.2 "FIRM")])) } := by
    unfold mergeLeft
    rw [if_pos ⟨hnY, by exact List.mem_cons_self _ _⟩]
    apply congrArg
    apply table_eq
    · rfl
    · refine congrArg reindex ?_
      rw [hrows]
      rw [joinRows_singleton]
      rw [merge_ms_char fa p, hma]
      show (List.map (fun q : ℕ × Row => (q.1, projRow q.2)) (q0 :: qs)).map
          (fun q => p.2 ++ q.2.filter (fun b => !decide (b.1 = "YEAR"))) = _
      rw [List.map_map]
      apply List.map_congr_left
      intro q _
      rfl
  have hFB : Table.getColE
      { cols := national.cols ++ ["FIRM_BIRTHS"],
        rows := reindex ((q0 :: qs).map (fun q =>
          p.2 ++ [("FIRM_BIRTHS", getCellD q.2 "FIRM")])) } "FIRM_BIRTHS" =
      Except.ok ((q0 :: qs).map (fun q => getCellD q.2 "FIRM")) := by
    unfold Table.getColE Table.getColD
    rw [if_pos (List.mem_append.mpr (Or.inr (by decide)))]
    apply congrArg
    rw [show (fun pr : ℕ × Row => getCellD pr.2 "FIRM_BIRTHS") =
        ((fun r : Row => getCellD r "FIRM_BIRTHS") ∘ Prod.snd) from rfl,
      ← List.map_map, map_snd_reindex, List.map_map]
    apply List.map_congr_left
    intro q _
    show getCellD (p.2 ++ [("FIRM_BIRTHS", getCellD q.2 "FIRM")]) "FIRM_BIRTHS" =
      getCellD q.2 "FIRM"
    rw [getCellD_append_right _ (by rw [hw.2 p hp]; exact hnFB)]
    rfl
  have hFIRM : Table.getColE
      { cols := national.cols ++ ["FIRM_BIRTHS"],
        rows := reindex ((q0 :: qs).map (fun q =>
          p.2 ++ [("FIRM_BIRTHS", getCellD q.2 "FIRM")])) } "FIRM" =
      Except.ok ((q0 :: qs).map (fun _ => getCellD p.2 "FIRM")) := by
    unfold Table.getColE Table.getColD
    rw [if_pos (List.mem_append.mpr (Or.inl hnF))]
    apply congrArg
    rw [show (fun pr : ℕ × Row => getCellD pr.2 "FIRM") =
        ((fun r : Row => getCellD r "FIRM") ∘ Prod.snd) from rfl,
      ← List.map_map, map_snd_reindex, List.map_map]
    apply List.map_congr_left
    intro q _
    show getCellD (p.2 ++ [("FIRM_BIRTHS", getCellD q.2 "FIRM")]) "FIRM" =
      getCellD p.2 "FIRM"
    exact getCellD_append_left _ (by rw [hw.2 p hp]; exact hnF)
  have hseries : seriesRate ((q0 :: qs).map (fun q => getCellD q.2 "FIRM"))
      ((q0 :: qs).map (fun _ => getCellD p.2 "FIRM")) =
      Except.ok ((q0 :: qs).map (fun q =>
        rateOfCells (getCellD q.2 "FIRM") (getCellD p.2 "FIRM"))) := by
    unfold seriesRate
    rw [List.zip_map']
    have hcomp : (q0 :: qs).map (fun q =>
          rateOfCells (getCellD q.2 "FIRM") (getCellD p.2 "FIRM")) =
        ((q0 :: qs).map (fun q =>
          (getCellD q.2 "FIRM", getCellD p.2 "FIRM"))).map
          (fun x => rateOfCells x.1 x.2) := by
      rw [List.map_map]
      apply List.map_congr_left
      intro q _
      rfl
    rw [hcomp]
    apply mapE_ok
    intro x hx
    rcases List.mem_map.mp hx with ⟨q, hq, rfl⟩
    have hqfa : q ∈ fa.rows := by
      have hqm : q ∈ age0Matches fa p.2 := by
        rw [hma]
        exact hq
      exact List.mem_of_mem_filter hqm
    rcases hnumF q hqfa with ⟨a, ha⟩
    rcases hnump with ⟨b, hb⟩
    show (cellNum (getCellD q.2 "FIRM")).bind _ = _
    rw [ha, hb]
    rfl
  refine ⟨Table.setCol
      { cols := national.cols ++ ["FIRM_BIRTHS"],
        rows := reindex ((q0 :: qs).map (fun q =>
          p.2 ++ [("FIRM_BIRTHS", getCellD q.2 "FIRM")])) } "FIRM_BIRTH_RATE"
      ((q0 :: qs).map (fun q =>
        rateOfCells (getCellD q.2 "FIRM") (getCellD p.2 "FIRM"))), ?_, ?_, ?_⟩
  · unfold add_firm_birth_rate
    rw [extract_ok hfF hfY hfFI, ok_bind, hmerge, ok_bind, hFB, ok_bind, hFIRM,
      ok_bind, hseries, ok_bind]
  · simp [Table.setCol, reindex]
  · simp only [Table.setCol]
    rw [List.map_zipWith]
    have hlen : (List.range (((q0 :: qs).map (fun q =>
        p.2 ++ [("FIRM_BIRTHS", getCellD q.2 "FIRM")])).length)).length =
        ((q0 :: qs).map (fun q =>
          p.2 ++ [("FIRM_BIRTHS", getCellD q.2 "FIRM")])).length := by
      simp
    rw [show reindex ((q0 :: qs).map (fun q =>
        p.2 ++ [("FIRM_BIRTHS", getCellD q.2 "FIRM")])) =
      (List.range (((q0 :: qs).map (fun q =>
        p.2 ++ [("FIRM_BIRTHS", getCellD q.2 "FIRM")])).length)).zip
        ((q0 :: qs).map (fun q =>
          p.2 ++ [("FIRM_BIRTHS", getCellD q.2 "FIRM")])) from rfl]
    rw [(zipWith_snd_zip (fun r v => rowSet r "FIRM_BIRTH_RATE" v) _ _ _).2 hlen,
      zipWith_map_both]
    apply List.map_congr_left
    intro q _
    show rowSet (p.2 ++ [("FIRM_BIRTHS", getCellD q.2 "FIRM")]) "FIRM_BIRTH_RATE"
        (rateOfCells (getCellD q.2 "FIRM") (getCellD p.2 "FIRM")) = _
    rw [rowSet_eq_append _ (by
      rw [List.map_append, hw.2 p hp]
      intro hmem
      rcases List.mem_append.mp hmem with h | h
      · exact hnFBR h
      · simp at h)]
    rw [List.append_assoc]
    rfl

/-- C9 witness input: a national table with one 2021 row. -/
def exC9nat : Table :=
  { cols := ["YEAR", "FIRM"],
    rows := [(0, [("YEAR", CellVal.num (Val.fin 2021)),
                  ("FIRM", CellVal.num (Val.fin 6000000))])] }

/-- C9 witness input: a firm-age table with two `FAGE = 10` rows for the
same year 2021. -/
def exC9fa : Table :=
  { cols := ["FAGE", "YEAR", "FIRM"],
    rows := [(0, [("FAGE", CellVal.num (Val.fin 10)),
                  ("YEAR", CellVal.num (Val.fin 2021)),
                  ("FIRM", CellVal.num (Val.fin 450000))]),
             (1, [("FAGE", CellVal.num (Val.fin 10)),
                  ("YEAR", CellVal.num (Val.fin 2021)),
                  ("FIRM", CellVal.num (Val.fin 999))])] }

theorem C9_witness :
    1 < (age0Matches exC9fa
      [("YEAR", CellVal.num (Val.fin 2021)),
       ("FIRM", CellVal.num (Val.fin 6000000))]).length ∧
    ∃ T, add_firm_birth_rate exC9nat exC9fa = Except.ok T ∧
      T.rows.length = (age0Matches exC9fa
        [("YEAR", CellVal.num (Val.fin 2021)),
         ("FIRM", CellVal.num (Val.fin 6000000))]).length ∧
      T.rows.map Prod.snd = (age0Matches exC9fa
        [("YEAR", CellVal.num (Val.fin 2021)),
         ("FIRM", CellVal.num (Val.fin 6000000))]).map (fun q =>
        [("YEAR", CellVal.num (Val.fin 2021)),
         ("FIRM", CellVal.num (Val.fin 6000000))] ++
          [("FIRM_BIRTHS", getCellD q.2 "FIRM"),
           ("FIRM_BIRTH_RATE",
             rateOfCells (getCellD q.2 "FIRM")
               (getCellD [("YEAR", CellVal.num (Val.fin 2021)),
                 ("FIRM", CellVal.num (Val.fin 6000000))] "FIRM"))]) :=
  ⟨by decide,
    C9_duplicate_age0_rows exC9nat exC9fa
      (0, [("YEAR", CellVal.num (Val.fin 2021)),
           ("FIRM", CellVal.num (Val.fin 6000000))])
      (by decide) rfl (by decide) (by decide) (by decide) (by decide)
      (by decide) (by decide) (by decide)
      ⟨Val.fin 6000000, rfl⟩
      (by
        intro q hq
        unfold exC9fa at hq
        rcases List.mem_cons.mp hq with rfl | hq
        · exact ⟨Val.fin 450000, rfl⟩
        · rcases List.mem_cons.mp hq with rfl | hq
          · exact ⟨Val.fin 999, rfl⟩
          · cases hq)
      (by decide)⟩

theorem labelStep_unmapped (m : List (ℚ × String)) (cc lc : String) (df : Table)
    (i : ℕ) (p : ℕ × Row) (q : ℚ)
    (hp : df.rows[i]? = some p)
    (hcode : getCellD p.2 cc = CellVal.num (Val.fin q))
    (hq : qlookup m q = none) :
    ∃ p' : ℕ × Row,
      (df.setCol lc ((df.getColD cc).map (mapLabels m))).rows[i]? = some p' ∧
      rlookup p'.2 lc = some (CellVal.num Val.nan) ∧
      ∀ c : String, c ≠ lc → rlookup p'.2 c = rlookup p.2 c := by
  have hvs : (df.getColD cc).map (mapLabels m) =
      df.rows.map (fun p => mapLabels m (getCellD p.2 cc)) := by
    unfold Table.getColD
    rw [List.map_map]
    rfl
  refine ⟨(p.1, rowSet p.2 lc (mapLabels m (getCellD p.2 cc))), ?_, ?_, ?_⟩
  · rw [hvs, setCol_map, List.getElem?_map, hp, Option.map_some']
  · have hml : mapLabels m (CellVal.num (Val.fin q)) = CellVal.num Val.nan := by
      show (match qlookup m q with
        | some s => CellVal.str s
        | none => CellVal.num Val.nan) = CellVal.num Val.nan
      rw [hq]
    rw [hcode, hml, rlookup_rowSet_self]
  · intro c hc
    exact rlookup_rowSet_ne _ _ hc

/-- C7: in the by-state and by-firm-age labelling steps, a row whose
categorical code (`state` FIPS or `FAGE`) is not a key of the static lookup
gets a missing (`nan`) label cell — no error — and every other column of
that row is left unchanged. -/
theorem C7_unmapped_codes_missing_label :
    (∀ (df : Table) (i : ℕ) (p : ℕ × Row) (q : ℚ),
      df.rows[i]? = some p →
      getCellD p.2 "state" = CellVal.num (Val.fin q) →
      qlookup STATE_FIPS q = none →
      ∃ p' : ℕ × Row,
        (df.setCol "STATE_NAME"
          ((df.getColD "state").map (mapLabels STATE_FIPS))).rows[i]? = some p' ∧
        rlookup p'.2 "STATE_NAME" = some (CellVal.num Val.nan) ∧
        ∀ c : String, c ≠ "STATE_NAME" → rlookup p'.2 c = rlookup p.2 c) ∧
    (∀ (df : Table) (i : ℕ) (p : ℕ × Row) (q : ℚ),
      df.rows[i]? = some p →
      getCellD p.2 "FAGE" = CellVal.num (Val.fin q) →
      qlookup FIRM_AGE_LABELS q = none →
      ∃ p' : ℕ × Row,
        (df.setCol "FIRM_AGE_LABEL"
          ((df.getColD "FAGE").map (mapLabels FIRM_AGE_LABELS))).rows[i]? = some p' ∧
        rlookup p'.2 "FIRM_AGE_LABEL" = some (CellVal.num Val.nan) ∧
        ∀ c : String, c ≠ "FIRM_AGE_LABEL" → rlookup p'.2 c = rlookup p.2 c) :=
  ⟨fun df i p q hp hc hq => labelStep_unmapped _ _ _ df i p q hp hc hq,
   fun df i p q hp hc hq => labelStep_unmapped _ _ _ df i p q hp hc hq⟩

/-- C7 witness input: a by-state row with the unmapped state code 60
(American Samoa, absent from the 51-entry FIPS table). -/
def exC7 : Table :=
  { cols := ["YEAR", "state", "FIRM"],
    rows := [(0, [("YEAR", CellVal.num (Val.fin 2021)),
                  ("state", CellVal.num (Val.fin 60)),
                  ("FIRM", CellVal.num (Val.fin 100))])] }

theorem C7_witness :
    qlookup STATE_FIPS 60 = none ∧
    ∃ p' : ℕ × Row,
      (exC7.setCol "STATE_NAME"
        ((exC7.getColD "state").map (mapLabels STATE_FIPS))).rows[0]? = some p' ∧
      rlookup p'.2 "STATE_NAME" = some (CellVal.num Val.nan) ∧
      ∀ c : String, c ≠ "STATE_NAME" →
        rlookup p'.2 c = rlookup [("YEAR", CellVal.num (Val.fin 2021)),
          ("state", CellVal.num (Val.fin 60)),
          ("FIRM", CellVal.num (Val.fin 100))] c :=
  ⟨by decide,
   C7_unmapped_codes_missing_label.1 exC7 0
     (0, [("YEAR", CellVal.num (Val.fin 2021)),
          ("state", CellVal.num (Val.fin 60)),
          ("FIRM", CellVal.num (Val.fin 100))]) 60 rfl rfl (by decide)⟩

theorem cellLE_iff (a b : CellVal) :
    cellLEkey a b = true ↔
      (rank a < rank b ∨ (rank a = rank b ∧ qval a ≤ qval b)) := by
  unfold cellLEkey
  exact decide_eq_true_iff

theorem cellLE_total (a b : CellVal) :
    cellLEkey a b = true ∨ cellLEkey b a = true := by
  rcases Nat.lt_trichotomy (rank a) (rank b) with h | h | h
  · exact Or.inl ((cellLE_iff a b).mpr (Or.inl h))
  · rcases le_total (qval a) (qval b) with hq | hq
    · exact Or.inl ((cellLE_iff a b).mpr (Or.inr ⟨h, hq⟩))
    · exact Or.inr ((cellLE_iff b a).mpr (Or.inr ⟨h.symm, hq⟩))
  · exact Or.inr ((cellLE_iff b a).mpr (Or.inl h))

theorem cellLE_trans {a b c : CellVal} (h1 : cellLEkey a b = true)
    (h2 : cellLEkey b c = true) : cellLEkey a c = true := by
  rw [cellLE_iff] at h1 h2 ⊢
  rcases h1 with h1 | ⟨e1, q1⟩ <;> rcases h2 with h2 | ⟨e2, q2⟩
  · exact Or.inl (h1.trans h2)
  · exact Or.inl (by omega)
  · exact Or.inl (by omega)
  · exact Or.inr ⟨e1.trans e2, q1.trans q2⟩

theorem rowLE_total (keys : List String) (r s : Row) :
    rowLE keys r s = true ∨ rowLE keys s r = true := by
  induction keys with
  | nil => exact Or.inl rfl
  | cons k ks ih =>
      by_cases hab : cellLEkey (getCellD r k) (getCellD s k) = true
      · by_cases hba : cellLEkey (getCellD s k) (getCellD r k) = true
        · rcases ih with h | h
          · exact Or.inl (by simp [rowLE, hab, hba, h])
          · exact Or.inr (by simp [rowLE, hab, hba, h])
        · exact Or.inl (by simp [rowLE, hab, hba])
      · have hba : cellLEkey (getCellD s k) (getCellD r k) = true :=
          (cellLE_total _ _).resolve_left hab
        exact Or.inr (by simp [rowLE, hba, hab])

theorem rowLE_trans (keys : List String) : ∀ (r s t : Row),
    rowLE keys r s = true → rowLE keys s t = true →
      rowLE keys r t = true := by
  induction keys with
  | nil =>
      intro r s t _ _
      rfl
  | cons k ks ih =>
      intro r s t h1 h2
      by_cases hab : cellLEkey (getCellD r k) (getCellD s k) = true
      · by_cases hbc : cellLEkey (getCellD s k) (getCellD t k) = true
        · have hac := cellLE_trans hab hbc
          by_cases hca : cellLEkey (getCellD t k) (getCellD r k) = true
          · have hba := cellLE_trans hbc hca
            have hcb := cellLE_trans hca hab
            simp [rowLE, hab, hba] at h1
            simp [rowLE, hbc, hcb] at h2
            simpa [rowLE, hac, hca] using ih r s t h1 h2
          · simp [rowLE, hac, hca]
        · simp [rowLE, hbc] at h2
      · simp [rowLE, hab] at h1

theorem sorted_insertion (keys : List String) (l : List (ℕ × Row)) :
    (List.insertionSort (fun p q => rowLE keys p.2 q.2 = true) l).Pairwise
      (fun p q => rowLE keys p.2 q.2 = true) := by
  haveI : IsTotal (ℕ × Row) (fun p q => rowLE keys p.2 q.2 = true) :=
    ⟨fun p q => rowLE_total keys p.2 q.2⟩
  haveI : IsTrans (ℕ × Row) (fun p q => rowLE keys p.2 q.2 = true) :=
    ⟨fun p q u h1 h2 => rowLE_trans keys p.2 q.2 u.2 h1 h2⟩
  exact List.sorted_insertionSort _ l

theorem sort_values_ok {keys : List String} {df T : Table}
    (h : sort_values keys df = Except.ok T) :
    T.rows = List.insertionSort (fun p q => rowLE keys p.2 q.2 = true)
      df.rows := by
  unfold sort_values at h
  split at h
  · cases h
    rfl
  · cases h

theorem pairwise_zip_right {α β : Type} (S : β → β → Prop) :
    ∀ (ns : List α) (l : List β), l.Pairwise S →
      (ns.zip l).Pairwise (fun p q => S p.2 q.2) := by
  intro ns
  induction ns with
  | nil =>
      intro l _
      simp
  | cons a ns ih =>
      intro l hl
      cases l with
      | nil => simp
      | cons b l =>
          rw [List.zip_cons_cons]
          rw [List.pairwise_cons] at hl ⊢
          refine ⟨?_, ih l hl.2⟩
          intro x hx
          rcases x with ⟨xa, xb⟩
          exact hl.1 xb (List.of_mem_zip hx).2

theorem map_fst_reindex (l : List Row) :
    (reindex l).map Prod.fst = List.range l.length := by
  unfold reindex
  exact List.map_fst_zip _ _ (by simp)

theorem rowLE_filter_ne (keys : List String) (c' : String) (hk : c' ∉ keys)
    (r s : Row) :
    rowLE keys (r.filter (fun b => !decide (b.1 = c')))
      (s.filter (fun b => !decide (b.1 = c'))) = rowLE keys r s := by
  induction keys with
  | nil => rfl
  | cons k ks ih =>
      have hkc : k ≠ c' := fun h => hk (h ▸ List.mem_cons_self _ _)
      simp only [rowLE, getCellD_filter_ne r hkc, getCellD_filter_ne s hkc,
        ih (fun h => hk (List.mem_cons_of_mem _ h))]

theorem C10core_reset (keys : List String) (d : Table)
    (h : d.rows.Pairwise (fun p q => rowLE keys p.2 q.2 = true)) :
    (reset_index d).rows.map Prod.fst =
      List.range (reset_index d).rows.length ∧
    (reset_index d).rows.Pairwise (fun p q => rowLE keys p.2 q.2 = true) := by
  constructor
  · show (reindex (d.rows.map Prod.snd)).map Prod.fst = _
    rw [map_fst_reindex]
    congr 1
    show (d.rows.map Prod.snd).length = (reindex (d.rows.map Prod.snd)).length
    unfold reindex
    simp
  · show (reindex (d.rows.map Prod.snd)).Pairwise _
    unfold reindex
    exact pairwise_zip_right (fun r s => rowLE keys r s = true) _
      (d.rows.map Prod.snd) (List.pairwise_map.mpr h)

theorem C10core_drop (keys : List String) (hk : "us" ∉ keys) (d : Table)
    (h1 : d.rows.map Prod.fst = List.range d.rows.length)
    (h2 : d.rows.Pairwise (fun p q => rowLE keys p.2 q.2 = true)) :
    (dropUs d).rows.map Prod.fst = List.range (dropUs d).rows.length ∧
    (dropUs d).rows.Pairwise (fun p q => rowLE keys p.2 q.2 = true) := by
  unfold dropUs
  split
  · constructor
    · show ((d.rows.map (fun p =>
          (p.1, p.2.filter (fun b => !decide (b.1 = "us"))))).map Prod.fst) = _
      rw [List.map_map]
      rw [show ((Prod.fst : ℕ × Row → ℕ) ∘ (fun p : ℕ × Row =>
          (p.1, p.2.filter (fun b => !decide (b.1 = "us"))))) =
        (Prod.fst : ℕ × Row → ℕ) from rfl]
      rw [h1]
      congr 1
      simp
    · show (d.rows.map (fun p =>
          (p.1, p.2.filter (fun b => !decide (b.1 = "us"))))).Pairwise _
      refine List.pairwise_map.mpr ?_
      refine h2.imp ?_
      intro p q hpq
      show rowLE keys (p.2.filter (fun b => !decide (b.1 = "us")))
        (q.2.filter (fun b => !decide (b.1 = "us"))) = true
      rw [rowLE_filter_ne keys "us" hk]
      exact hpq
  · exact ⟨h1, h2⟩

/-- C10: every successful output of the three transforms has a freshly
reset index (`0, 1, 2, …` in order) and rows sorted ascending by the
function's sort keys: `YEAR` for national, `(YEAR, FAGE)` for by-firm-age,
`(YEAR, state)` for by-state. -/
theorem C10_sorted_fresh_index :
    ∀ (df T : Table),
      (transform_national df = Except.ok T →
        T.rows.map Prod.fst = List.range T.rows.length ∧
        T.rows.Pairwise (fun p q => rowLE ["YEAR"] p.2 q.2 = true)) ∧
      (transform_by_firm_age df = Except.ok T →
        T.rows.map Prod.fst = List.range T.rows.length ∧
        T.rows.Pairwise (fun p q => rowLE ["YEAR", "FAGE"] p.2 q.2 = true)) ∧
      (transform_by_state df = Except.ok T →
        T.rows.map Prod.fst = List.range T.rows.length ∧
        T.rows.Pairwise (fun p q => rowLE ["YEAR", "state"] p.2 q.2 = true)) := by
  intro df T
  refine ⟨?_, ?_, ?_⟩
  · intro h
    unfold transform_national at h
    rcases bind_ok h with ⟨d1, _, h2⟩
    rcases bind_ok h2 with ⟨d2, hs, h3⟩
    cases h3
    have hsorted : d2.rows.Pairwise
        (fun p q => rowLE ["YEAR"] p.2 q.2 = true) := by
      rw [sort_values_ok hs]
      exact sorted_insertion _ _
    obtain ⟨ha, hb⟩ := C10core_reset ["YEAR"] d2 hsorted
    exact C10core_drop ["YEAR"] (by decide) (reset_index d2) ha hb
  · intro h
    unfold transform_by_firm_age at h
    rcases bind_ok h with ⟨d1, _, h2⟩
    rcases bind_ok h2 with ⟨d2, hs, h3⟩
    cases h3
    have hsorted : d2.rows.Pairwise
        (fun p q => rowLE ["YEAR", "FAGE"] p.2 q.2 = true) := by
      rw [sort_values_ok hs]
      exact sorted_insertion _ _
    obtain ⟨ha, hb⟩ := C10core_reset ["YEAR", "FAGE"] d2 hsorted
    exact C10core_drop ["YEAR", "FAGE"] (by decide) (reset_index d2) ha hb
  · intro h
    unfold transform_by_state at h
    rcases bind_ok h with ⟨d1, _, h2⟩
    rcases bind_ok h2 with ⟨d2, hs, h3⟩
    cases h3
    have hsorted : d2.rows.Pairwise
        (fun p q => rowLE ["YEAR", "state"] p.2 q.2 = true) := by
      rw [sort_values_ok hs]
      exact sorted_insertion _ _
    exact C10core_reset ["YEAR", "state"] d2 hsorted

/-- C10 witness input: a two-row national table whose years arrive in
descending order, with the constant `us` column. -/
def exC10 : Table :=
  { cols := ["YEAR", "us"],
    rows := [(0, [("YEAR", CellVal.num (Val.fin 2022)),
                  ("us", CellVal.num (Val.fin 1))]),
             (1, [("YEAR", CellVal.num (Val.fin 2021)),
                  ("us", CellVal.num (Val.fin 1))])] }

/-- What the national transform produces on `exC10`: rows reordered by
`YEAR`, index reset, `us` dropped. -/
def exC10T : Table :=
  { cols := ["YEAR"],
    rows := [(0, [("YEAR", CellVal.num (Val.fin 2021))]),
             (1, [("YEAR", CellVal.num (Val.fin 2022))])] }

theorem C10_witness :
    transform_national exC10 = Except.ok exC10T ∧
    exC10T.rows.map Prod.fst = List.range exC10T.rows.length ∧
    exC10T.rows.Pairwise (fun p q => rowLE ["YEAR"] p.2 q.2 = true) :=
  ⟨by decide, (C10_sorted_fresh_index exC10 exC10T).1 (by decide)⟩

/-! ## Claim C1 -/

/-- The claim's scenario input: a row with `FIRM = 0` and
`FIRMDEATH_FIRMS = 100`. -/
def exC1 : Table :=
  { cols := ["FIRM", "FIRMDEATH_FIRMS"],
    rows := [(0, [("FIRM", CellVal.num (Val.fin 0)),
                  ("FIRMDEATH_FIRMS", CellVal.num (Val.fin 100))])] }

/-- The enriched table the code produces on `exC1`. -/
def exC1T : Table :=
  { cols := ["FIRM", "FIRMDEATH_FIRMS", "FIRM_DEATH_RATE"],
    rows := [(0, [("FIRM", CellVal.num (Val.fin 0)),
                  ("FIRMDEATH_FIRMS", CellVal.num (Val.fin 100)),
                  ("FIRM_DEATH_RATE", CellVal.num Val.pinf)])] }

/-- C1, counterexample: on the spec's own scenario row (`FIRM = 0`,
`FIRMDEATH_FIRMS = 100`) the enricher produces `FIRM_DEATH_RATE = +inf`
(numpy division of a nonzero value by zero), not a missing value, refuting
"a row with FIRM = 0 and FIRMDEATH_FIRMS = 100 gets a missing
FIRM_DEATH_RATE, never an error or an infinite value". -/
theorem C1_counterexample :
    (calculate_rates exC1).map
        (fun T => T.rows.map (fun q : ℕ × Row => rlookup q.2 "FIRM_DEATH_RATE")) =
      Except.ok [some (CellVal.num Val.pinf)] ∧
    CellVal.num Val.pinf ≠ CellVal.num Val.nan := by
  exact ⟨by decide, by decide⟩

/-- C1 (amended): for every row of an enriched table whose rate inputs are
present and hold infinity-free numeric values, each derived rate column
equals `(numerator / denominator * 100).round(2)` under IEEE semantics, and
that value is missing if and only if an input is missing (`nan`) or both
numerator and denominator are zero; a zero denominator under a nonzero
numerator yields an infinity instead of a missing value.  One conjunct per
rate: STARTUP_RATE, EXIT_RATE, JOB_CREATION_RATE, JOB_DESTRUCTION_RATE,
FIRM_DEATH_RATE. -/
theorem C1_rate_null_characterization :
    (∀ (df T : Table) (i : ℕ) (p : ℕ × Row) (n d : Val),
      calculate_rates df = Except.ok T → NumericCells df →
      "FIRM" ∈ df.cols → "ESTABS_ENTRY" ∈ df.cols → "ESTAB" ∈ df.cols →
      df.rows[i]? = some p →
      getCellD p.2 "ESTABS_ENTRY" = CellVal.num n →
      getCellD p.2 "ESTAB" = CellVal.num d →
      finOrNan n → finOrNan d →
      ∃ p' : ℕ × Row, T.rows[i]? = some p' ∧
        rlookup p'.2 "STARTUP_RATE" = some (CellVal.num (rateCellV n d)) ∧
        (rateCellV n d = Val.nan ↔
          (n = Val.nan ∨ d = Val.nan ∨ (n = Val.fin 0 ∧ d = Val.fin 0)))) ∧
    (∀ (df T : Table) (i : ℕ) (p : ℕ × Row) (n d : Val),
      calculate_rates df = Except.ok T → NumericCells df →
      "FIRM" ∈ df.cols → "ESTABS_EXIT" ∈ df.cols → "ESTAB" ∈ df.cols →
      df.rows[i]? = some p →
      getCellD p.2 "ESTABS_EXIT" = CellVal.num n →
      getCellD p.2 "ESTAB" = CellVal.num d →
      finOrNan n → finOrNan d →
      ∃ p' : ℕ × Row, T.rows[i]? = some p' ∧
        rlookup p'.2 "EXIT_RATE" = some (CellVal.num (rateCellV n d)) ∧
        (rateCellV n d = Val.nan ↔
          (n = Val.nan ∨ d = Val.nan ∨ (n = Val.fin 0 ∧ d = Val.fin 0)))) ∧
    (∀ (df T : Table) (i : ℕ) (p : ℕ × Row) (n d : Val),
      calculate_rates df = Except.ok T → NumericCells df →
      "EMP" ∈ df.cols → "JOB_CREATION" ∈ df.cols →
      df.rows[i]? = some p →
      getCellD p.2 "JOB_CREATION" = CellVal.num n →
      getCellD p.2 "EMP" = CellVal.num d →
      finOrNan n → finOrNan d →
      ∃ p' : ℕ × Row, T.rows[i]? = some p' ∧
        rlookup p'.2 "JOB_CREATION_RATE" = some (CellVal.num (rateCellV n d)) ∧
        (rateCellV n d = Val.nan ↔
          (n = Val.nan ∨ d = Val.nan ∨ (n = Val.fin 0 ∧ d = Val.fin 0)))) ∧
    (∀ (df T : Table) (i : ℕ) (p : ℕ × Row) (n d : Val),
      calculate_rates df = Except.ok T → NumericCells df →
      "EMP" ∈ df.cols → "JOB_DESTRUCTION" ∈ df.cols →
      df.rows[i]? = some p →
      getCellD p.2 "JOB_DESTRUCTION" = CellVal.num n →
      getCellD p.2 "EMP" = CellVal.num d →
      finOrNan n → finOrNan d →
      ∃ p' : ℕ × Row, T.rows[i]? = some p' ∧
        rlookup p'.2 "JOB_DESTRUCTION_RATE" = some (CellVal.num (rateCellV n d)) ∧
        (rateCellV n d = Val.nan ↔
          (n = Val.nan ∨ d = Val.nan ∨ (n = Val.fin 0 ∧ d = Val.fin 0)))) ∧
    (∀ (df T : Table) (i : ℕ) (p : ℕ × Row) (n d : Val),
      calculate_rates df = Except.ok T → NumericCells df →
      "FIRM" ∈ df.cols → "FIRMDEATH_FIRMS" ∈ df.cols →
      df.rows[i]? = some p →
      getCellD p.2 "FIRMDEATH_FIRMS" = CellVal.num n →
      getCellD p.2 "FIRM" = CellVal.num d →
      finOrNan n → finOrNan d →
      ∃ p' : ℕ × Row, T.rows[i]? = some p' ∧
        rlookup p'.2 "FIRM_DEATH_RATE" = some (CellVal.num (rateCellV n d)) ∧
        (rateCellV n d = Val.nan ↔
          (n = Val.nan ∨ d = Val.nan ∨ (n = Val.fin 0 ∧ d = Val.fin 0)))) := by
  refine ⟨?_, ?_, ?_, ?_, ?_⟩
  · intro df T i p n d h hnum hg1 hg2 hdc hp hn hd hfn hfd
    obtain ⟨p', hT, _, hlook⟩ := calc_startup_lookup h hnum hg1 hg2 hdc hp
    rw [hn, hd] at hlook
    exact ⟨p', hT, by simpa [valOf] using hlook, rateCellV_nan_iff hfn hfd⟩
  · intro df T i p n d h hnum hg1 hg2 hdc hp hn hd hfn hfd
    obtain ⟨p', hT, _, hlook⟩ := calc_exit_lookup h hnum hg1 hg2 hdc hp
    rw [hn, hd] at hlook
    exact ⟨p', hT, by simpa [valOf] using hlook, rateCellV_nan_iff hfn hfd⟩
  · intro df T i p n d h hnum hg1 hg2 hp hn hd hfn hfd
    obtain ⟨p', hT, _, hlook⟩ := calc_jc_lookup h hnum hg1 hg2 hp
    rw [hn, hd] at hlook
    exact ⟨p', hT, by simpa [valOf] using hlook, rateCellV_nan_iff hfn hfd⟩
  · intro df T i p n d h hnum hg1 hg2 hp hn hd hfn hfd
    obtain ⟨p', hT, _, hlook⟩ := calc_jd_lookup h hnum hg1 hg2 hp
    rw [hn, hd] at hlook
    exact ⟨p', hT, by simpa [valOf] using hlook, rateCellV_nan_iff hfn hfd⟩
  · intro df T i p n d h hnum hg1 hg2 hp hn hd hfn hfd
    obtain ⟨p', hT, _, hlook⟩ := calc_death_lookup h hnum hg1 hg2 hp
    rw [hn, hd] at hlook
    exact ⟨p', hT, by simpa [valOf] using hlook, rateCellV_nan_iff hfn hfd⟩

/-- C1, witness: the amended theorem applied to the scenario table `exC1`
(`FIRM = 0`, `FIRMDEATH_FIRMS = 100`): the rate cell is
`rateCellV 100 0 = +inf`, and the null-characterization holds there. -/
theorem C1_witness :
    calculate_rates exC1 = Except.ok exC1T ∧
    (∃ p' : ℕ × Row, exC1T.rows[0]? = some p' ∧
      rlookup p'.2 "FIRM_DEATH_RATE" =
        some (CellVal.num (rateCellV (Val.fin 100) (Val.fin 0))) ∧
      (rateCellV (Val.fin 100) (Val.fin 0) = Val.nan ↔
        (Val.fin 100 = Val.nan ∨ Val.fin 0 = Val.nan ∨
          (Val.fin 100 = Val.fin 0 ∧ Val.fin 0 = Val.fin 0)))) := by
  constructor
  · decide
  · exact C1_rate_null_characterization.2.2.2.2 exC1 exC1T 0
      (0, [("FIRM", CellVal.num (Val.fin 0)), ("FIRMDEATH_FIRMS", CellVal.num (Val.fin 100))])
      (Val.fin 100) (Val.fin 0) (by decide)
      (numericCells_of_all exC1 (by decide))
      (by decide) (by decide) (by decide) (by decide) (by decide)
      (Or.inr ⟨100, rfl⟩) (Or.inr ⟨0, rfl⟩)

/-! ## Claim C2 -/

/-- The failing input for C2: a table with `FIRM` and `ESTABS_ENTRY`
columns but no `ESTAB` column. -/
def exC2 : Table :=
  { cols := ["FIRM", "ESTABS_ENTRY"],
    rows := [(0, [("FIRM", CellVal.num (Val.fin 100)),
                  ("ESTABS_ENTRY", CellVal.num (Val.fin 5))])] }

/-- C2: the spec says the enricher computes each rate exactly when its
required source columns are present and never fails on a table lacking some
of them; the code's guard for STARTUP_RATE tests `FIRM` and `ESTABS_ENTRY`
but the formula reads `ESTAB`, so a table with `FIRM` and `ESTABS_ENTRY`
and no `ESTAB` raises `KeyError` — contradicting the code's own comment
"Only calculate if we have the necessary columns".  This theorem evaluates
the embedded code at the failing input. -/
theorem C2_guard_keyerror :
    calculate_rates exC2 = Except.error "KeyError: ESTAB" := by decide

/-! ## Claim C6 -/

/-- C6: for every enriched row whose `ESTABS_ENTRY` and `ESTAB` cells are
present, finite, with `ESTAB ≠ 0` (and the `FIRM` guard column present, as
the code requires), `STARTUP_RATE = ESTABS_ENTRY / ESTAB × 100` rounded to
2 decimals. -/
theorem C6_startup_rate_formula :
    ∀ (df T : Table) (i : ℕ) (p : ℕ × Row) (a b : ℚ),
      calculate_rates df = Except.ok T → NumericCells df →
      "FIRM" ∈ df.cols → "ESTABS_ENTRY" ∈ df.cols → "ESTAB" ∈ df.cols →
      df.rows[i]? = some p →
      getCellD p.2 "ESTABS_ENTRY" = CellVal.num (Val.fin a) →
      getCellD p.2 "ESTAB" = CellVal.num (Val.fin b) → b ≠ 0 →
      ∃ p' : ℕ × Row, T.rows[i]? = some p' ∧
        rlookup p'.2 "STARTUP_RATE" =
          some (CellVal.num (Val.fin (round2q (a / b * 100)))) := by
  intro df T i p a b h hnum hg1 hg2 hdc hp hn hd hb
  obtain ⟨p', hT, _, hlook⟩ := calc_startup_lookup h hnum hg1 hg2 hdc hp
  rw [hn, hd] at hlook
  refine ⟨p', hT, ?_⟩
  rw [hlook]
  simp [valOf, rateCellV_fin hb]

/-- The C6 scenario input: `YEAR = 2020`, `ESTABS_ENTRY = 500000`,
`ESTAB = 5000000` (with the `FIRM` guard column present). -/
def exC6 : Table :=
  { cols := ["YEAR", "FIRM", "ESTABS_ENTRY", "ESTAB"],
    rows := [(0, [("YEAR", CellVal.num (Val.fin 2020)),
                  ("FIRM", CellVal.num (Val.fin 1)),
                  ("ESTABS_ENTRY", CellVal.num (Val.fin 500000)),
                  ("ESTAB", CellVal.num (Val.fin 5000000))])] }

/-- The enriched table the code produces on `exC6`. -/
def exC6T : Table :=
  { cols := ["YEAR", "FIRM", "ESTABS_ENTRY", "ESTAB", "STARTUP_RATE"],
    rows := [(0, [("YEAR", CellVal.num (Val.fin 2020)),
                  ("FIRM", CellVal.num (Val.fin 1)),
                  ("ESTABS_ENTRY", CellVal.num (Val.fin 500000)),
                  ("ESTAB", CellVal.num (Val.fin 5000000)),
                  ("STARTUP_RATE", CellVal.num (Val.fin 10))])] }

/-- C6, witness: the scenario row with `ESTABS_ENTRY = 500000` and
`ESTAB = 5000000` gets `STARTUP_RATE = 10.00`. -/
theorem C6_witness :
    calculate_rates exC6 = Except.ok exC6T ∧
    round2q ((500000 : ℚ) / 5000000 * 100) = 10 ∧
    (∃ p' : ℕ × Row, exC6T.rows[0]? = some p' ∧
      rlookup p'.2 "STARTUP_RATE" =
        some (CellVal.num (Val.fin (round2q ((500000 : ℚ) / 5000000 * 100))))) := by
  refine ⟨by decide, ?_, ?_⟩
  · have h : (500000 : ℚ) / 5000000 * 100 = 10 := by norm_num
    rw [h]; decide
  exact C6_startup_rate_formula exC6 exC6T 0
    (0, [("YEAR", CellVal.num (Val.fin 2020)), ("FIRM", CellVal.num (Val.fin 1)),
         ("ESTABS_ENTRY", CellVal.num (Val.fin 500000)),
         ("ESTAB", CellVal.num (Val.fin 5000000))])
    500000 5000000 (by decide)
    (numericCells_of_all exC6 (by decide))
    (by decide) (by decide) (by decide) (by decide) (by decide) (by decide) (by decide)

end BDS
